import Mathlib

/-!
Verification development for the sodh-link-finder search pipeline.

This file gives a shallow embedding, in Lean 4, of the ranking/orchestration
core of the repository (the second ranker module, exporting
resolveSearchCostMode / getSearchCostConfig / runSearchPipeline, together
with the escalation controller of the server module) and proves the frozen
claims about it.

Modelling conventions:
* JavaScript strings are Lean String values; the JS helpers toLowerCase,
  trim and the regular-expression matches used by the source are
  re-implemented here over the character list of the string so that they
  compute by kernel reduction (ASCII case mapping, as the source only ever
  matches a-z0-9 tokens).
* JS URL parsing (the WHATWG URL constructor) is external to the repository;
  a URL string is modelled as either its parsed components (scheme, host,
  path, query, fragment; host already lower-case, path beginning with a
  slash) or as an unparseable raw string, mirroring the try/catch around
  the URL constructor in extractDomain and canonicalUrl.
* The external search provider is a deterministic function of the query,
  the requested count and the index of the call (the index models the state
  of the external world across the strictly sequential calls of one run);
  it returns either rows or an error carrying a statusCode.
* JS numbers on the paths exercised here are integers; scores are Int,
  counters and limits are Nat (Math.max(limit - used, 0) is Nat
  subtraction).
-/

/-- Character class of the source's regular expressions: a-z0-9. -/
def isTokenChar (c : Char) : Bool :=
  ('a' ≤ c && c ≤ 'z') || ('0' ≤ c && c ≤ '9')

/-- ASCII lower-casing of one character (JS toLowerCase on the data the
source handles). -/
def lowerChar (c : Char) : Char :=
  if 'A' ≤ c ∧ c ≤ 'Z' then Char.ofNat (c.toNat + 32) else c

/-- JS String.prototype.toLowerCase, restricted to ASCII case mapping. -/
def jsToLower (s : String) : String := ⟨s.data.map lowerChar⟩

/-- Whitespace recognised by JS String.prototype.trim (the subset relevant
to this code base). -/
def isWsChar (c : Char) : Bool :=
  c = ' ' || c = '\t' || c = '\n' || c = '\r'

/-- JS String.prototype.trim. -/
def jsTrim (s : String) : String :=
  ⟨((s.data.dropWhile isWsChar).reverse.dropWhile isWsChar).reverse⟩

/-- JS String.prototype.includes on character lists. -/
def listContainsSub (t : List Char) : List Char → Bool
  | [] => t.isPrefixOf []
  | c :: rest => t.isPrefixOf (c :: rest) || listContainsSub t rest

/-- One position of the word-boundary regex of containsToken: the term
matches here and the character following the match (if any) is outside
a-z0-9. -/
def tokenMatchHere (t hs : List Char) : Bool :=
  t.isPrefixOf hs &&
    (match hs.drop t.length with
     | [] => true
     | c :: _ => !isTokenChar c)

/-- Scan of the word-boundary regex (^|[^a-z0-9])term([^a-z0-9]|$): a match
may start at a position only when the preceding character (if any) is
outside a-z0-9. -/
def ctAux (t : List Char) : Bool → List Char → Bool
  | canStart, [] => canStart && tokenMatchHere t []
  | canStart, c :: rest =>
      (canStart && tokenMatchHere t (c :: rest)) || ctAux t (!isTokenChar c) rest

/-- containsToken from the ranker: empty terms never match; terms with a
space are plain substring matches; single-word terms match on word
boundaries.  (escapeRegExp of the source is the identity here because the
match is performed directly, not through a regex engine.) -/
def containsToken (haystack term : String) : Bool :=
  if term = "" then false
  else if term.data.contains ' ' then listContainsSub term.data haystack.data
  else ctAux term.data true haystack.data

/-- Maximal runs of a-z0-9 characters (the /[a-z0-9]+/g match of tokenize).
The first argument accumulates the current run in reverse. -/
def alnumRuns (cur : List Char) : List Char → List String
  | [] => if cur.isEmpty then [] else [⟨cur.reverse⟩]
  | c :: rest =>
      if isTokenChar c then alnumRuns (c :: cur) rest
      else if cur.isEmpty then alnumRuns [] rest
      else (⟨cur.reverse⟩ : String) :: alnumRuns [] rest

/-- Order-preserving deduplication ([...new Set(xs)]). -/
def dedupStr (seen : List String) : List String → List String
  | [] => []
  | x :: xs =>
      if seen.contains x then dedupStr seen xs else x :: dedupStr (x :: seen) xs

/-- tokenize from the ranker: lower-case, take maximal a-z0-9 runs, keep
tokens of length > 1, dedupe preserving first-seen order. -/
def tokenize (value : String) : List String :=
  dedupStr [] ((alnumRuns [] (jsToLower value).data).filter (fun t => 1 < t.length))

/-- Components of a URL string accepted by the WHATWG URL constructor:
hostname already lower-case, pathname beginning with a slash, query and
fragment without their leading punctuation. -/
structure ParsedUrl where
  scheme : String
  host : String
  path : String
  query : String
  frag : String
deriving DecidableEq, Repr

/-- A URL string as the source sees it: either it parses, or the URL
constructor throws and only the raw string is available. -/
inductive UrlStr
  | parseable (u : ParsedUrl)
  | malformed (raw : String)
deriving DecidableEq, Repr

/-- Serialization of a parsed URL (URL.prototype.toString). -/
def ParsedUrl.render (u : ParsedUrl) : String :=
  u.scheme ++ "://" ++ u.host ++ u.path ++
    (if u.query = "" then "" else "?" ++ u.query) ++
    (if u.frag = "" then "" else "#" ++ u.frag)

/-- The string contents of a URL value. -/
def UrlStr.render : UrlStr → String
  | .parseable u => u.render
  | .malformed raw => raw

/-- Whether the URL string is empty (the !url falsiness check of
normalizeRow). -/
def UrlStr.isEmptyStr : UrlStr → Bool
  | .parseable _ => false
  | .malformed raw => raw = ""

/-- extractDomain from the ranker: hostname of the parsed URL lower-cased,
or the empty string when the URL constructor throws. -/
def extractDomain : UrlStr → String
  | .parseable u => jsToLower u.host
  | .malformed _ => ""

/-- Drop every trailing slash (the replace(/\/+$/, "") of canonicalUrl). -/
def stripTrailingSlashes (s : String) : String :=
  ⟨(s.data.reverse.dropWhile (fun c => c = '/')).reverse⟩

/-- canonicalUrl from the ranker: clear the fragment and, when the path is
not the bare root, strip trailing slashes; unparseable URLs are returned
unchanged. -/
def canonicalUrl : UrlStr → UrlStr
  | .parseable u =>
      .parseable { u with
        frag := "",
        path := if u.path = "/" then u.path else stripTrailingSlashes u.path }
  | .malformed raw => .malformed raw

/-- PRIORITY_DOMAINS from the providers module. -/
def PRIORITY_DOMAINS : List String :=
  ["cdc.gov", "data.census.gov", "census.gov", "countyhealthrankings.org",
   "bls.gov", "ers.usda.gov", "cms.gov", "hhs.gov", "acf.hhs.gov", "tn.gov",
   "vdh.virginia.gov", "irs.gov", "nces.ed.gov", "transportation.gov",
   "hud.gov", "epa.gov", "ucr.fbi.gov", "feedingamerica.org",
   "opportunityinsights.org", "urban.org", "sparkmaps.com",
   "droughtmonitor.unl.edu", "impactlab.org", "cnt.org",
   "hifld-geoplatform.opendata.arcgis.com"]

/-- matchesHost from the ranker: exact host or sub-domain (suffix after a
dot). -/
def matchesHost (hostname priorityHost : String) : Bool :=
  hostname = priorityHost || ("." ++ priorityHost).data.isSuffixOf hostname.data

/-- isPriorityDomain from the ranker. -/
def isPriorityDomain (hostname : String) : Bool :=
  PRIORITY_DOMAINS.any (fun priority => matchesHost hostname (jsToLower priority))

/-- A provider error carrying an HTTP-like status code (statusCode of
ProviderRequestError; a missing or non-numeric code behaves as a value
different from 422). -/
structure PError where
  statusCode : Int
deriving DecidableEq, Repr

/-- A raw provider row {title, url, snippet}.  The title and snippet are
the strings after the String(x || "") coercion; the url is the coerced and
trimmed url string in its parsed-or-malformed form. -/
structure Row where
  title : String
  url : UrlStr
  snippet : String
deriving DecidableEq, Repr

/-- The external search provider: a function of the query, the requested
count and the index of the provider call within the run (the number of
calls that reached the provider before this one). -/
def Provider : Type := String → Nat → Nat → Except PError (List Row)

/-- The mutable request budget {limit, used, exhausted} of one pipeline
run. -/
structure RequestBudget where
  limit : Nat
  used : Nat
  exhausted : Bool
deriving DecidableEq, Repr

/-- remaining = Math.max(limit - used, 0), which is Nat subtraction. -/
def RequestBudget.remaining (b : RequestBudget) : Nat := b.limit - b.used

/-- Numeric candidate for a call-ceiling override: NaN covers every
non-numeric input of Number(candidate), num an integral numeric value. -/
inductive NumCandidate
  | nan
  | num (value : Int)
deriving DecidableEq, Repr

/-- normalizeMaxProviderCalls from the ranker: keep a finite positive
value (floored; integral in this model), otherwise use the fallback. -/
def normalizeMaxProviderCalls (candidate : NumCandidate) (fallback : Nat) : Nat :=
  match candidate with
  | .nan => fallback
  | .num v => if v ≤ 0 then fallback else v.toNat

/-- searchWithBudget from the ranker, the single choke point for provider
calls: with no budget remaining it marks the budget exhausted and returns
an empty result set without reaching the provider; otherwise it increments
used and dispatches (a provider error propagates, the increment already
performed). -/
def searchWithBudget (provider : Provider) (query : String) (count : Nat)
    (b : RequestBudget) : Except PError (List Row) × RequestBudget :=
  if b.remaining ≤ 0 then
    (.ok [], { b with exhausted := true })
  else
    (provider query count b.used, { b with used := b.used + 1 })

/-- A sequence of calls routed through searchWithBudget: threads the budget
through the calls and counts how many of them actually reached the
provider (exactly the calls dispatched with remaining > 0). -/
def runBudgetCalls (provider : Provider) (b : RequestBudget) :
    List (String × Nat) → RequestBudget × Nat
  | [] => (b, 0)
  | (q, c) :: rest =>
      let dispatched : Nat := if 0 < b.remaining then 1 else 0
      let r := runBudgetCalls provider (searchWithBudget provider q c b).2 rest
      (r.1, dispatched + r.2)
/-- searchQueryAllow422 from the ranker: a 422 provider error is converted
to an empty row list; other errors propagate. -/
def searchQueryAllow422 (provider : Provider) (query : String) (count : Nat)
    (b : RequestBudget) : Except PError (List Row) × RequestBudget :=
  match searchWithBudget provider query count b with
  | (.ok rows, b') => (.ok rows, b')
  | (.error e, b') =>
      if e.statusCode = 422 then (.ok [], b') else (.error e, b')

/-- One bundle of cost knobs (an entry of SEARCH_COST_MODES). -/
structure CostProfile where
  mode : String
  maxProviderCalls : Nat
  maxTopicSeedCalls : Nat
  maxTopicSeedDomainsPerRule : Nat
  topicSeedResultCount : Nat
  maxDataCensusSeedCalls : Nat
  dataCensusSeedResultCount : Nat
  stageADomainBatchSize : Nat
  stageABatchLimit : Nat
  stageABatchResultCount : Nat
  stageADomainResultCount : Nat
  allowStageADomainFallbackOn422 : Bool
  stageABufferLimit : Nat
  stageAMaxResultsPerDomain : Nat
  maxPriorityResults : Nat
  minStageADiverseDomains : Nat
  minGoodResults : Nat
  fallbackResultCount : Nat
  targetResultCount : Nat
  absoluteMaxResults : Nat
  maxResultsPerDomain : Nat
deriving DecidableEq, Repr

/-- SEARCH_COST_MODES.economy. -/
def economyProfile : CostProfile :=
  { mode := "economy"
    maxProviderCalls := 4
    maxTopicSeedCalls := 2
    maxTopicSeedDomainsPerRule := 2
    topicSeedResultCount := 10
    maxDataCensusSeedCalls := 1
    dataCensusSeedResultCount := 8
    stageADomainBatchSize := 6
    stageABatchLimit := 2
    stageABatchResultCount := 12
    stageADomainResultCount := 8
    allowStageADomainFallbackOn422 := false
    stageABufferLimit := 16
    stageAMaxResultsPerDomain := 2
    maxPriorityResults := 8
    minStageADiverseDomains := 3
    minGoodResults := 8
    fallbackResultCount := 20
    targetResultCount := 10
    absoluteMaxResults := 12
    maxResultsPerDomain := 2 }

/-- SEARCH_COST_MODES.standard. -/
def standardProfile : CostProfile :=
  { mode := "standard"
    maxProviderCalls := 8
    maxTopicSeedCalls := 6
    maxTopicSeedDomainsPerRule := 3
    topicSeedResultCount := 12
    maxDataCensusSeedCalls := 2
    dataCensusSeedResultCount := 12
    stageADomainBatchSize := 4
    stageABatchLimit := 6
    stageABatchResultCount := 20
    stageADomainResultCount := 10
    allowStageADomainFallbackOn422 := true
    stageABufferLimit := 24
    stageAMaxResultsPerDomain := 3
    maxPriorityResults := 10
    minStageADiverseDomains := 4
    minGoodResults := 8
    fallbackResultCount := 50
    targetResultCount := 12
    absoluteMaxResults := 15
    maxResultsPerDomain := 3 }

/-- DEFAULT_SEARCH_COST_MODE. -/
def DEFAULT_SEARCH_COST_MODE : String := "economy"

/-- resolveSearchCostMode from the ranker: trim, lower-case, keep the value
when the membership test finds it on SEARCH_COST_MODES, else the default.
The source's test is the JS in operator, which also finds every property
SEARCH_COST_MODES inherits from Object.prototype; of those inherited keys
only "constructor" and "__proto__" are entirely lower-case, so they are the
only inherited keys a trimmed lower-cased candidate can hit, and for them
the candidate is returned unchanged rather than replaced by the default. -/
def resolveSearchCostMode (candidate : String) : String :=
  let normalized := jsToLower (jsTrim candidate)
  if normalized = "economy" ∨ normalized = "standard" ∨
      normalized = "constructor" ∨ normalized = "__proto__" then normalized
  else DEFAULT_SEARCH_COST_MODE

/-- resolveSearchCostProfile from the ranker: index SEARCH_COST_MODES with
the resolved mode. For the two inherited keys "constructor" and "__proto__"
the source lookup yields a non-profile object inherited from
Object.prototype, every profile field of which reads undefined; the model
keeps the default profile for those two modes, the one spot where it is
coarser than the code. -/
def resolveSearchCostProfile (mode : String) : CostProfile :=
  if resolveSearchCostMode mode = "standard" then standardProfile else economyProfile

/-- The record returned by getSearchCostConfig. -/
structure CostConfig where
  mode : String
  defaultMode : String
  modeOptions : List String
  providerRequestLimit : Nat
deriving DecidableEq, Repr

/-- getSearchCostConfig from the ranker. -/
def getSearchCostConfig (mode : String) (maxProviderCalls : NumCandidate) : CostConfig :=
  let profile := resolveSearchCostProfile mode
  { mode := profile.mode
    defaultMode := DEFAULT_SEARCH_COST_MODE
    modeOptions := ["economy", "standard"]
    providerRequestLimit := normalizeMaxProviderCalls maxProviderCalls profile.maxProviderCalls }

/-- createRequestBudget from the ranker. -/
def createRequestBudget (costProfile : CostProfile) (maxProviderCalls : NumCandidate) :
    RequestBudget :=
  { limit := normalizeMaxProviderCalls maxProviderCalls costProfile.maxProviderCalls
    used := 0
    exhausted := false }

/-- DATA_CENSUS_HOST and the scoring constants of the ranker. -/
def DATA_CENSUS_HOST : String := "data.census.gov"

def DATA_CENSUS_BONUS : Int := 160
def DATA_ASSET_HINT_BONUS : Int := 90
def DATA_FILE_EXTENSION_BONUS : Int := 140
def DATA_MAP_HINT_BONUS : Int := 45
def NON_DATA_HINT_PENALTY : Int := 45
def PRIORITY_ASSET_QUERY_SUFFIX : String := "dataset table download csv xlsx"
def LOCATION_SIGNAL_BONUS : Int := 70
def MISSING_LOCATION_SIGNAL_PENALTY : Int := 90
def CENSUS_WHEN_TOPIC_PENALTY : Int := 190

def DATA_ASSET_HINTS : List String :=
  ["table", "tables", "dataset", "datasets", "data", "download", "indicator",
   "csv", "xls", "xlsx", "api", "open data", "microdata", "shapefile",
   "geojson", "map", "gis"]

def DATA_FILE_EXTENSIONS : List String :=
  [".csv", ".xls", ".xlsx", ".zip", ".json", ".geojson", ".shp", ".gpkg",
   ".kml", ".kmz"]

def DATA_MAP_HINTS : List String :=
  ["map", "arcgis", "geoplatform", "atlas", "hifld", "gis"]

def NON_DATA_HINTS : List String :=
  ["news", "press release", "blog", "about", "careers", "privacy", "terms",
   "contact us"]

def LOW_SIGNAL_TERMS : List String :=
  ["for", "both", "and", "or", "the", "to", "of", "in", "by", "with", "rate",
   "rates", "county", "counties", "data", "map", "maps", "table", "tables"]

/-- A location alias group of LOCATION_SIGNAL_GROUPS. -/
structure LocationGroup where
  id : String
  aliases : List String
deriving DecidableEq, Repr

def LOCATION_SIGNAL_GROUPS : List LocationGroup :=
  [{ id := "tn", aliases := ["tn", "tennessee"] },
   { id := "va", aliases := ["va", "virginia"] }]

/-- A topic boost rule of TOPIC_DOMAIN_BOOST_RULES. -/
structure TopicRule where
  triggerTerms : List String
  domains : List String
  bonus : Int
deriving DecidableEq, Repr

def TOPIC_DOMAIN_BOOST_RULES : List TopicRule :=
  [{ triggerTerms := ["absent", "absence", "attendance", "chronic"],
     domains := ["nces.ed.gov", "tn.gov", "vdh.virginia.gov"], bonus := 420 },
   { triggerTerms := ["incarceration", "incarcerated", "jail", "prison", "offender"],
     domains := ["ucr.fbi.gov", "urban.org", "tn.gov"], bonus := 430 },
   { triggerTerms := ["drought", "dry", "water"],
     domains := ["droughtmonitor.unl.edu", "epa.gov", "tn.gov"], bonus := 460 },
   { triggerTerms := ["opportunity", "mobility", "atlas"],
     domains := ["opportunityinsights.org"], bonus := 560 },
   { triggerTerms := ["medicaid", "medicare", "chip"],
     domains := ["cms.gov", "tn.gov", "hhs.gov", "acf.hhs.gov"], bonus := 430 },
   { triggerTerms := ["food", "desert", "insecurity"],
     domains := ["ers.usda.gov", "feedingamerica.org", "tn.gov",
                 "countyhealthrankings.org"], bonus := 390 },
   { triggerTerms := ["transit", "transportation", "commute", "mobility"],
     domains := ["transportation.gov", "cnt.org", "tn.gov"], bonus := 390 }]

def CENSUS_SEED_TERMS : List String :=
  ["income", "household", "poverty", "housing", "rent", "commute",
   "population", "demographic", "median", "uninsured", "insurance", "acs",
   "census"]

/-- The query context built once per run. -/
structure QueryContext where
  queryTerms : List String
  coreTerms : List String
  locationTerms : List String
  locationSignals : List LocationGroup
  activeTopicRules : List TopicRule
deriving DecidableEq, Repr

/-- extractLocationSignals from the ranker. -/
def extractLocationSignals (queryTerms : List String) : List LocationGroup :=
  LOCATION_SIGNAL_GROUPS.filter
    (fun group => group.aliases.any (fun al => queryTerms.contains al))

/-- extractLocationTerms from the ranker: present aliases, in group order,
deduplicated. -/
def extractLocationTerms (queryTerms : List String) : List String :=
  dedupStr []
    ((LOCATION_SIGNAL_GROUPS.map
        (fun group => group.aliases.filter (fun al => queryTerms.contains al))).flatten)

/-- buildQueryContext from the ranker: coreTerms are the query terms that
are not low-signal, falling back to the full term set when that filter
removes everything. -/
def buildQueryContext (query : String) : QueryContext :=
  let queryTerms := tokenize query
  let coreTerms := queryTerms.filter (fun term => !LOW_SIGNAL_TERMS.contains term)
  { queryTerms := queryTerms
    coreTerms := if 0 < coreTerms.length then coreTerms else queryTerms
    locationTerms := extractLocationTerms queryTerms
    locationSignals := extractLocationSignals queryTerms
    activeTopicRules := TOPIC_DOMAIN_BOOST_RULES.filter
      (fun rule => rule.triggerTerms.any (fun term => queryTerms.contains term)) }

/-- shouldSeedDataCensus from the ranker. -/
def shouldSeedDataCensus (queryContext : QueryContext) : Bool :=
  if 0 < queryContext.activeTopicRules.length &&
      !queryContext.queryTerms.contains "census" then false
  else queryContext.queryTerms.any (fun term => CENSUS_SEED_TERMS.contains term)

/-- Coverage counters of computeTermCoverage. -/
structure CoreCoverage where
  titleMatches : Nat
  snippetMatches : Nat
  urlMatches : Nat
  uniqueMatches : Nat
deriving DecidableEq, Repr

/-- computeTermCoverage from the ranker. -/
def computeTermCoverage (terms : List String)
    (lowerTitle lowerSnippet lowerUrl : String) : CoreCoverage :=
  match terms with
  | [] => ⟨0, 0, 0, 0⟩
  | term :: rest =>
      let cov := computeTermCoverage rest lowerTitle lowerSnippet lowerUrl
      let inTitle := containsToken lowerTitle term
      let inSnippet := containsToken lowerSnippet term
      let inUrl := containsToken lowerUrl term
      { titleMatches := cov.titleMatches + (if inTitle then 1 else 0)
        snippetMatches := cov.snippetMatches + (if inSnippet then 1 else 0)
        urlMatches := cov.urlMatches + (if inUrl then 1 else 0)
        uniqueMatches := cov.uniqueMatches + (if inTitle || inSnippet || inUrl then 1 else 0) }

/-- containsAnyHint from the ranker (note the url/title/snippet argument
order of the source). -/
def containsAnyHint (hints : List String) (lowerUrl lowerTitle lowerSnippet : String) : Bool :=
  hints.any (fun hint =>
    containsToken lowerUrl hint || containsToken lowerTitle hint ||
      containsToken lowerSnippet hint)

/-- hasDataFileExtension from the ranker: the url up to the first question
mark or hash ends in a data file extension. -/
def hasDataFileExtension (lowerUrl : String) : Bool :=
  let cleanUrl : String :=
    ⟨(lowerUrl.data.takeWhile (fun c => c ≠ '?')).takeWhile (fun c => c ≠ '#')⟩
  DATA_FILE_EXTENSIONS.any (fun ext => ext.data.isSuffixOf cleanUrl.data)

/-- countLocationSignalMatches from the ranker.  The result fields used are
the lower-cased title, snippet, url and the domain. -/
def countLocationSignalMatches (locationSignals : List LocationGroup)
    (lowerTitle lowerSnippet lowerUrl domain : String) : Nat :=
  (locationSignals.filter (fun signal =>
      signal.aliases.any (fun al =>
        containsToken lowerTitle al || containsToken lowerSnippet al ||
          containsToken lowerUrl al ||
          containsToken (jsToLower domain) al))).length

/-- getTopicDomainBoost from the ranker. -/
def getTopicDomainBoost (activeTopicRules : List TopicRule) (domain : String) : Int :=
  (activeTopicRules.map (fun rule =>
      if rule.domains.any (fun targetDomain => matchesHost (jsToLower domain) targetDomain)
      then rule.bonus else 0)).sum

/-- getTopicMismatchPenalty from the ranker. -/
def getTopicMismatchPenalty (activeTopicRules : List TopicRule)
    (queryTerms : List String) (domain : String) : Int :=
  if activeTopicRules.length = 0 then 0
  else if queryTerms.contains "census" then 0
  else
    let lowerDomain := jsToLower domain
    if matchesHost lowerDomain "census.gov" || matchesHost lowerDomain DATA_CENSUS_HOST
    then -CENSUS_WHEN_TOPIC_PENALTY
    else 0

/-- The result record handed to scoreResult (the object literal of
normalizeRow, with the lower-cased projections precomputed). -/
structure ScoreInput where
  title : String
  snippet : String
  url : UrlStr
  domain : String
  isPriority : Bool
  lowerTitle : String
  lowerSnippet : String
  lowerUrl : String
deriving Repr

/-- scoreResult from the ranker: sum of the independent additive signals. -/
def scoreResult (result : ScoreInput) (queryContext : QueryContext)
    (coreCoverage : CoreCoverage) : Int :=
  let s0 : Int := if result.isPriority then 1000 else 0
  let s1 : Int := if matchesHost (jsToLower result.domain) DATA_CENSUS_HOST
    then DATA_CENSUS_BONUS else 0
  let s2 : Int := if containsAnyHint DATA_ASSET_HINTS result.lowerUrl result.lowerTitle
      result.lowerSnippet then DATA_ASSET_HINT_BONUS else 0
  let s3 : Int := if containsAnyHint DATA_MAP_HINTS result.lowerUrl result.lowerTitle
      result.lowerSnippet then DATA_MAP_HINT_BONUS else 0
  let s4 : Int := if hasDataFileExtension result.lowerUrl then DATA_FILE_EXTENSION_BONUS else 0
  let s5 : Int := if containsAnyHint NON_DATA_HINTS result.lowerUrl result.lowerTitle
      result.lowerSnippet then -NON_DATA_HINT_PENALTY else 0
  let s6 : Int := coreCoverage.titleMatches * 24 + coreCoverage.snippetMatches * 12 +
    coreCoverage.urlMatches * 8 + coreCoverage.uniqueMatches * 18
  let s7 : Int := (queryContext.queryTerms.map (fun term =>
      (if containsToken result.lowerTitle term then (8 : Int) else 0) +
      (if containsToken result.lowerSnippet term then (4 : Int) else 0) +
      (if containsToken result.lowerUrl term then (3 : Int) else 0))).sum
  let locationMatches := countLocationSignalMatches queryContext.locationSignals
    result.lowerTitle result.lowerSnippet result.lowerUrl result.domain
  let s8 : Int :=
    if 0 < queryContext.locationSignals.length then
      if locationMatches = 0 then -MISSING_LOCATION_SIGNAL_PENALTY
      else locationMatches * LOCATION_SIGNAL_BONUS
    else 0
  let s9 : Int := getTopicDomainBoost queryContext.activeTopicRules result.domain
  let s10 : Int := getTopicMismatchPenalty queryContext.activeTopicRules
    queryContext.queryTerms result.domain
  s0 + s1 + s2 + s3 + s4 + s5 + s6 + s7 + s8 + s9 + s10

/-- A normalized result of the ranker. -/
structure NormalizedResult where
  title : String
  url : UrlStr
  snippet : String
  domain : String
  isPriority : Bool
  score : Int
  urlKey : UrlStr
deriving DecidableEq, Repr

/-- normalizeRow from the ranker: coerce and trim the fields, require a
non-empty title, url and extractable hostname, apply the hard core-term
relevance gate, then score. -/
def normalizeRow (row : Row) (queryContext : QueryContext) : Option NormalizedResult :=
  let title := jsTrim row.title
  let url := row.url
  let snippet := jsTrim row.snippet
  let domain := extractDomain url
  if title = "" ∨ url.isEmptyStr ∨ domain = "" then none
  else
    let lowerTitle := jsToLower title
    let lowerSnippet := jsToLower snippet
    let lowerUrl := jsToLower url.render
    let coreCoverage := computeTermCoverage queryContext.coreTerms lowerTitle
      lowerSnippet lowerUrl
    if 0 < queryContext.coreTerms.length ∧ coreCoverage.uniqueMatches = 0 then none
    else
      let isPriority := isPriorityDomain domain
      let score := scoreResult
        { title := title, snippet := snippet, url := url, domain := domain,
          isPriority := isPriority, lowerTitle := lowerTitle,
          lowerSnippet := lowerSnippet, lowerUrl := lowerUrl }
        queryContext coreCoverage
      some { title := title, url := url, snippet := snippet, domain := domain,
             isPriority := isPriority, score := score, urlKey := canonicalUrl url }

/-- localeCompare modelled as the code-point lexicographic comparison:
negative, zero or positive. -/
def lexInt (s t : String) : Int :=
  if s < t then -1 else if t < s then 1 else 0

/-- compareByScore from the ranker: score descending, then priority first,
then domain ascending, then title ascending. -/
def compareByScore (a b : NormalizedResult) : Int :=
  if b.score ≠ a.score then b.score - a.score
  else if a.isPriority ≠ b.isPriority then (if a.isPriority then -1 else 1)
  else if a.domain ≠ b.domain then lexInt a.domain b.domain
  else lexInt a.title b.title

/-- The sort relation of Array.prototype.sort(compareByScore): a is placed
no later than b when the comparator is non-positive. -/
def scoreLe (a b : NormalizedResult) : Prop := compareByScore a b ≤ 0

instance : DecidableRel scoreLe := fun a b =>
  inferInstanceAs (Decidable (compareByScore a b ≤ 0))
/-- Lookup in the Map of per-domain counters (Map.get with default 0). -/
def getCount : List (String × Nat) → String → Nat
  | [], _ => 0
  | p :: rest, d => if p.1 = d then p.2 else getCount rest d

/-- Update in the Map of per-domain counters (Map.set). -/
def setCount (counts : List (String × Nat)) (d : String) (v : Nat) :
    List (String × Nat) :=
  match counts with
  | [] => [(d, v)]
  | p :: rest => if p.1 = d then (d, v) :: rest else p :: setCount rest d v

/-- appendUniquePriorityRows from the ranker: normalize each row, keep only
priority rows not yet seen, respect the per-domain cap and the buffer
limit.  Returns the updated (seenUrls, target, domainCounts). -/
def appendUniquePriorityRows (queryContext : QueryContext)
    (maxPerDomain bufferLimit : Nat) :
    List Row → List UrlStr → List NormalizedResult → List (String × Nat) →
    List UrlStr × List NormalizedResult × List (String × Nat)
  | [], seenUrls, target, domainCounts => (seenUrls, target, domainCounts)
  | row :: rest, seenUrls, target, domainCounts =>
      if bufferLimit ≤ target.length then (seenUrls, target, domainCounts)
      else
        match normalizeRow row queryContext with
        | none => appendUniquePriorityRows queryContext maxPerDomain bufferLimit
            rest seenUrls target domainCounts
        | some normalized =>
            if !normalized.isPriority then
              appendUniquePriorityRows queryContext maxPerDomain bufferLimit
                rest seenUrls target domainCounts
            else if normalized.urlKey ∈ seenUrls then
              appendUniquePriorityRows queryContext maxPerDomain bufferLimit
                rest seenUrls target domainCounts
            else
              let currentDomainCount := getCount domainCounts normalized.domain
              if maxPerDomain ≤ currentDomainCount then
                appendUniquePriorityRows queryContext maxPerDomain bufferLimit
                  rest seenUrls target domainCounts
              else
                appendUniquePriorityRows queryContext maxPerDomain bufferLimit
                  rest (normalized.urlKey :: seenUrls) (target ++ [normalized])
                  (setCount domainCounts normalized.domain (currentDomainCount + 1))

/-- Join a list of strings with a separator (Array.prototype.join). -/
def joinWith (sep : String) : List String → String
  | [] => ""
  | [s] => s
  | s :: rest => s ++ sep ++ joinWith sep rest

/-- buildDomainBatchQuery from the ranker. -/
def buildDomainBatchQuery (query : String) (domains : List String) : String :=
  query ++ " " ++ joinWith " OR " (domains.map (fun domain => "site:" ++ domain))

/-- Structural worker for chunkArray: the fuel starts at the length of the
list and every chunk consumes at least one element, so the fuel never runs
out; it only makes the recursion structural. -/
def chunkArrayAux {α : Type} (chunkSize : Nat) : Nat → List α → List (List α)
  | _, [] => []
  | 0, _ :: _ => []
  | fuel + 1, x :: xs =>
      ((x :: xs).take chunkSize) :: chunkArrayAux chunkSize fuel (xs.drop (chunkSize - 1))

/-- chunkArray from the ranker (the source is only invoked with a positive
chunk size; each chunk consumes at least one element). -/
def chunkArray {α : Type} (chunkSize : Nat) (items : List α) : List (List α) :=
  chunkArrayAux chunkSize items.length items

/-- buildDataCensusSeedQueries from the ranker. -/
def buildDataCensusSeedQueries (query : String) : List String :=
  [query ++ " site:" ++ DATA_CENSUS_HOST ++ " " ++ PRIORITY_ASSET_QUERY_SUFFIX,
   query ++ " site:" ++ DATA_CENSUS_HOST]

/-- buildTopicSeedQueries from the ranker. -/
def buildTopicSeedQueries (queryContext : QueryContext) (rule : TopicRule)
    (domain : String) (originalQuery : String) : List String :=
  let queries := [originalQuery ++ " site:" ++ domain]
  let baseTerms := rule.triggerTerms.take 2
  let locationTerms := queryContext.locationTerms.take 2
  let focusedTerms :=
    jsTrim (joinWith " " ((baseTerms ++ locationTerms).filter (fun s => s ≠ "")))
  let queries :=
    if focusedTerms ≠ "" then queries ++ [focusedTerms ++ " site:" ++ domain]
    else queries
  dedupStr [] queries

/-- countDistinctDomains from the ranker. -/
def countDistinctDomains (results : List NormalizedResult) : Nat :=
  (dedupStr [] (results.map (fun item => item.domain))).length

/-- hasEnoughStageAResults from the ranker. -/
def hasEnoughStageAResults (stageAPriorityResults : List NormalizedResult)
    (costProfile : CostProfile) : Bool :=
  costProfile.maxPriorityResults ≤ stageAPriorityResults.length &&
    costProfile.minStageADiverseDomains ≤ countDistinctDomains stageAPriorityResults

/-- The accumulated Stage A state of one run: the budget, the run-wide
dedup set, the priority buffer and its per-domain counters. -/
structure StageAState where
  budget : RequestBudget
  seenUrls : List UrlStr
  target : List NormalizedResult
  domainCounts : List (String × Nat)
deriving DecidableEq, Repr

/-- The guard of every topic-seeding loop level: the global topic seed call
cap was reached or at most one budget unit remains. -/
def topicSeedStop (costProfile : CostProfile) (topicSeedCalls : Nat)
    (b : RequestBudget) : Bool :=
  costProfile.maxTopicSeedCalls ≤ topicSeedCalls || b.remaining ≤ 1

/-- The innermost topic-seeding loop (over the seed queries of one rule and
domain). -/
def topicSeedQueryLoop (provider : Provider) (costProfile : CostProfile)
    (queryContext : QueryContext) :
    List String → Nat → StageAState → Except PError (Nat × StageAState)
  | [], topicSeedCalls, st => .ok (topicSeedCalls, st)
  | seedQuery :: rest, topicSeedCalls, st =>
      if topicSeedStop costProfile topicSeedCalls st.budget then
        .ok (topicSeedCalls, st)
      else
        match searchQueryAllow422 provider seedQuery costProfile.topicSeedResultCount
            st.budget with
        | (.error e, _) => .error e
        | (.ok domainSeedRows, b') =>
            let r := appendUniquePriorityRows queryContext 2 costProfile.stageABufferLimit
              domainSeedRows st.seenUrls st.target st.domainCounts
            topicSeedQueryLoop provider costProfile queryContext rest
              (topicSeedCalls + 1) ⟨b', r.1, r.2.1, r.2.2⟩

/-- The middle topic-seeding loop (over the capped domains of one rule). -/
def topicSeedDomainLoop (provider : Provider) (costProfile : CostProfile)
    (queryContext : QueryContext) (rule : TopicRule) (query : String) :
    List String → Nat → StageAState → Except PError (Nat × StageAState)
  | [], topicSeedCalls, st => .ok (topicSeedCalls, st)
  | domain :: rest, topicSeedCalls, st =>
      match topicSeedQueryLoop provider costProfile queryContext
          (buildTopicSeedQueries queryContext rule domain query) topicSeedCalls st with
      | .error e => .error e
      | .ok (calls', st') =>
          if topicSeedStop costProfile calls' st'.budget then .ok (calls', st')
          else topicSeedDomainLoop provider costProfile queryContext rule query
            rest calls' st'

/-- The outer topic-seeding loop (over the active topic rules). -/
def topicSeedRuleLoop (provider : Provider) (costProfile : CostProfile)
    (queryContext : QueryContext) (query : String) :
    List TopicRule → Nat → StageAState → Except PError (Nat × StageAState)
  | [], topicSeedCalls, st => .ok (topicSeedCalls, st)
  | activeRule :: rest, topicSeedCalls, st =>
      match topicSeedDomainLoop provider costProfile queryContext activeRule query
          (activeRule.domains.take costProfile.maxTopicSeedDomainsPerRule)
          topicSeedCalls st with
      | .error e => .error e
      | .ok (calls', st') =>
          if topicSeedStop costProfile calls' st'.budget then .ok (calls', st')
          else topicSeedRuleLoop provider costProfile queryContext query rest
            calls' st'

/-- The data-census seeding loop of the pipeline. -/
def dataCensusSeedLoop (provider : Provider) (costProfile : CostProfile)
    (queryContext : QueryContext) :
    List String → Nat → StageAState → Except PError StageAState
  | [], _, st => .ok st
  | seedQuery :: rest, dataSeedCalls, st =>
      if costProfile.maxDataCensusSeedCalls ≤ dataSeedCalls ∨ st.budget.remaining ≤ 1 then
        .ok st
      else
        match searchQueryAllow422 provider seedQuery
            costProfile.dataCensusSeedResultCount st.budget with
        | (.error e, _) => .error e
        | (.ok seedRows, b') =>
            let r := appendUniquePriorityRows queryContext 2 costProfile.stageABufferLimit
              seedRows st.seenUrls st.target st.domainCounts
            let st' : StageAState := ⟨b', r.1, r.2.1, r.2.2⟩
            if hasEnoughStageAResults st'.target costProfile then .ok st'
            else dataCensusSeedLoop provider costProfile queryContext rest
              (dataSeedCalls + 1) st'

/-- The per-domain fallback loop of searchPriorityBatch, entered after the
compound batch query was rejected with a 422 and the profile allows the
fallback: each domain is retried individually while more than one budget
unit remains; per-domain 422s are swallowed, other errors propagate. -/
def domainFallbackLoop (provider : Provider) (costProfile : CostProfile)
    (query : String) :
    List String → List Row → RequestBudget → Except PError (List Row) × RequestBudget
  | [], merged, b => (.ok merged, b)
  | domain :: rest, merged, b =>
      if b.remaining ≤ 1 then (.ok merged, b)
      else
        match searchWithBudget provider (query ++ " site:" ++ domain)
            costProfile.stageADomainResultCount b with
        | (.ok rows, b') =>
            domainFallbackLoop provider costProfile query rest (merged ++ rows) b'
        | (.error e, b') =>
            if e.statusCode ≠ 422 then (.error e, b')
            else domainFallbackLoop provider costProfile query rest merged b'

/-- searchPriorityBatch from the ranker: issue the compound OR-query for
the batch; on 422, either fall back to individual domain queries (when the
profile allows it) or yield zero rows; any other error propagates. -/
def searchPriorityBatch (provider : Provider) (costProfile : CostProfile)
    (query : String) (domainBatch : List String) (b : RequestBudget) :
    Except PError (List Row) × RequestBudget :=
  match searchWithBudget provider (buildDomainBatchQuery query domainBatch)
      costProfile.stageABatchResultCount b with
  | (.ok rows, b') => (.ok rows, b')
  | (.error e, b') =>
      if e.statusCode ≠ 422 then (.error e, b')
      else if !costProfile.allowStageADomainFallbackOn422 then (.ok [], b')
      else domainFallbackLoop provider costProfile query domainBatch [] b'

/-- The batched priority-domain sweep loop of the pipeline (the batches
argument is already capped to stageABatchLimit). -/
def stageABatchLoop (provider : Provider) (costProfile : CostProfile)
    (queryContext : QueryContext) (query : String) :
    List (List String) → StageAState → Except PError StageAState
  | [], st => .ok st
  | domainBatch :: rest, st =>
      if st.budget.remaining ≤ 1 then .ok st
      else
        match searchPriorityBatch provider costProfile query domainBatch st.budget with
        | (.error e, _) => .error e
        | (.ok stageARaw, b') =>
            let r := appendUniquePriorityRows queryContext
              costProfile.stageAMaxResultsPerDomain costProfile.stageABufferLimit
              stageARaw st.seenUrls st.target st.domainCounts
            let st' : StageAState := ⟨b', r.1, r.2.1, r.2.2⟩
            if hasEnoughStageAResults st'.target costProfile then .ok st'
            else stageABatchLoop provider costProfile queryContext query rest st'

/-- All of Stage A: topic seeding, data-census seeding, batched sweep. -/
def runStageA (provider : Provider) (costProfile : CostProfile)
    (queryContext : QueryContext) (query : String) (b : RequestBudget) :
    Except PError StageAState :=
  match topicSeedRuleLoop provider costProfile queryContext query
      queryContext.activeTopicRules 0 ⟨b, [], [], []⟩ with
  | .error e => .error e
  | .ok (_, st1) =>
      match (if shouldSeedDataCensus queryContext then
          dataCensusSeedLoop provider costProfile queryContext
            (buildDataCensusSeedQueries query) 0 st1
        else .ok st1) with
      | .error e => .error e
      | .ok st2 =>
          stageABatchLoop provider costProfile queryContext query
            ((chunkArray costProfile.stageADomainBatchSize
                (PRIORITY_DOMAINS.filter (fun domain => domain ≠ DATA_CENSUS_HOST))).take
              costProfile.stageABatchLimit)
            st2

/-- The Stage B accumulation loop of the pipeline: normalize every row
(priority or not), dedupe against everything already seen, stop once the
combined list reaches twice the target result count. -/
def stageBLoop (queryContext : QueryContext) (targetResultCount : Nat) :
    List Row → List UrlStr → List NormalizedResult → List NormalizedResult
  | [], _, combined => combined
  | row :: rest, seenUrls, combined =>
      match normalizeRow row queryContext with
      | none => stageBLoop queryContext targetResultCount rest seenUrls combined
      | some normalized =>
          if normalized.urlKey ∈ seenUrls then
            stageBLoop queryContext targetResultCount rest seenUrls combined
          else
            let combined' := combined ++ [normalized]
            if targetResultCount * 2 ≤ combined'.length then combined'
            else stageBLoop queryContext targetResultCount rest
              (normalized.urlKey :: seenUrls) combined'

/-- The accepting phase of limitResultsPerDomain: walk the sorted list,
accept up to maxPerDomain per domain into selected, spill the rest into
overflow, and return immediately (third component true) once selected
reaches maxTotal. -/
def limitPhase1 (maxPerDomain maxTotal : Nat) :
    List NormalizedResult → List NormalizedResult → List NormalizedResult →
    List (String × Nat) →
    List NormalizedResult × List NormalizedResult × Bool
  | [], selected, overflow, _ => (selected, overflow, false)
  | item :: rest, selected, overflow, domainCounts =>
      let currentCount := getCount domainCounts item.domain
      let selected' := if currentCount < maxPerDomain then selected ++ [item] else selected
      let overflow' := if currentCount < maxPerDomain then overflow else overflow ++ [item]
      let domainCounts' := if currentCount < maxPerDomain then
        setCount domainCounts item.domain (currentCount + 1) else domainCounts
      if maxTotal ≤ selected'.length then (selected', overflow', true)
      else limitPhase1 maxPerDomain maxTotal rest selected' overflow' domainCounts'

/-- The backfill phase of limitResultsPerDomain: append overflow items in
order until maxTotal is reached or overflow is exhausted. -/
def backfillOverflow (maxTotal : Nat) :
    List NormalizedResult → List NormalizedResult → List NormalizedResult
  | selected, [] => selected
  | selected, item :: rest =>
      let selected' := selected ++ [item]
      if maxTotal ≤ selected'.length then selected'
      else backfillOverflow maxTotal selected' rest

/-- limitResultsPerDomain from the ranker. -/
def limitResultsPerDomain (sortedResults : List NormalizedResult)
    (maxPerDomain maxTotal : Nat) : List NormalizedResult :=
  match limitPhase1 maxPerDomain maxTotal sortedResults [] [] [] with
  | (selected, _, true) => selected
  | (selected, overflow, false) => backfillOverflow maxTotal selected overflow

/-- The projection of a normalized result that the pipeline returns. -/
structure ResultRow where
  title : String
  url : UrlStr
  snippet : String
  domain : String
  isPriority : Bool
deriving DecidableEq, Repr

/-- The projection map of runSearchPipeline. -/
def projectResult (item : NormalizedResult) : ResultRow :=
  { title := item.title, url := item.url, snippet := item.snippet,
    domain := item.domain, isPriority := item.isPriority }

/-- The metadata record of one pipeline run. -/
structure PipelineMetadata where
  fallbackUsed : Bool
  priorityResultCount : Nat
  totalResultCount : Nat
  costMode : String
  providerRequestCount : Nat
  providerRequestLimit : Nat
  providerBudgetExhausted : Bool
deriving DecidableEq, Repr

/-- The output record of one pipeline run. -/
structure PipelineOutput where
  results : List ResultRow
  metadata : PipelineMetadata
deriving DecidableEq, Repr

/-- The options argument of runSearchPipeline. -/
structure PipelineOptions where
  costMode : String
  maxProviderCalls : NumCandidate
deriving DecidableEq, Repr

/-- The sort / per-domain balance / projection / metadata assembly at the
end of runSearchPipeline, over the combined candidate list and the final
budget. -/
def buildPipelineOutput (costProfile : CostProfile) (stA : StageAState)
    (combined : List NormalizedResult) (bFinal : RequestBudget) : PipelineOutput :=
  let sorted := List.insertionSort scoreLe combined
  let balanced := limitResultsPerDomain sorted costProfile.maxResultsPerDomain
    costProfile.absoluteMaxResults
  { results := balanced.map projectResult
    metadata :=
      { fallbackUsed := stA.target.length < costProfile.minGoodResults
        priorityResultCount := stA.target.length
        totalResultCount := balanced.length
        costMode := costProfile.mode
        providerRequestCount := bFinal.used
        providerRequestLimit := bFinal.limit
        providerBudgetExhausted := bFinal.exhausted } }

/-- The tail of runSearchPipeline after Stage A: conditional Stage B
fallback, then assembly. -/
def finishPipeline (provider : Provider) (costProfile : CostProfile)
    (queryContext : QueryContext) (query : String) (stA : StageAState) :
    Except PError PipelineOutput :=
  if stA.target.length < costProfile.minGoodResults ∧ 0 < stA.budget.remaining then
    match searchWithBudget provider query costProfile.fallbackResultCount
        stA.budget with
    | (.error e, _) => .error e
    | (.ok stageBRaw, b') =>
        .ok (buildPipelineOutput costProfile stA
          (stageBLoop queryContext costProfile.targetResultCount stageBRaw
            stA.seenUrls stA.target) b')
  else .ok (buildPipelineOutput costProfile stA stA.target stA.budget)

/-- runSearchPipeline from the ranker. -/
def runSearchPipeline (query : String) (provider : Provider)
    (options : PipelineOptions) : Except PError PipelineOutput :=
  let queryContext := buildQueryContext query
  let costProfile := resolveSearchCostProfile options.costMode
  let requestBudget := createRequestBudget costProfile options.maxProviderCalls
  match runStageA provider costProfile queryContext query requestBudget with
  | .error e => .error e
  | .ok stA => finishPipeline provider costProfile queryContext query stA
/-- The escalation configuration of the server module (the environment
derived constants AUTO_ESCALATE_STANDARD and the three thresholds, passed
explicitly here). -/
structure EscalationConfig where
  enabled : Bool
  minResults : Nat
  minPriorityResults : Nat
  minDistinctDomains : Nat
deriving DecidableEq, Repr

/-- The quality signals of computeSearchQualitySignals. -/
structure QualitySignals where
  totalResults : Nat
  priorityResults : Nat
  distinctDomainsTop8 : Nat
deriving DecidableEq, Repr

/-- computeSearchQualitySignals from the server module. -/
def computeSearchQualitySignals (results : List ResultRow) : QualitySignals :=
  let topSlice := results.take 8
  { totalResults := results.length
    priorityResults := (results.filter (fun row => row.isPriority)).length
    distinctDomainsTop8 := (dedupStr [] (topSlice.map (fun row => row.domain))).length }

/-- shouldEscalateSearch from the server module. -/
def shouldEscalateSearch (cfg : EscalationConfig) (requestedCostMode : String)
    (results : List ResultRow) : Bool :=
  if !cfg.enabled || requestedCostMode ≠ "economy" then false
  else
    let quality := computeSearchQualitySignals results
    decide (quality.totalResults < cfg.minResults) ||
      decide (quality.priorityResults < cfg.minPriorityResults) ||
      decide (quality.distinctDomainsTop8 < cfg.minDistinctDomains)

/-- computeQualityScore from the server module. -/
def computeQualityScore (results : List ResultRow) (metadata : PipelineMetadata) : Nat :=
  let quality := computeSearchQualitySignals results
  let topPriorityBonus : Nat :=
    match results.head? with
    | some row => if row.isPriority then 3 else 0
    | none => 0
  quality.totalResults * 5 + quality.priorityResults * 7 +
    quality.distinctDomainsTop8 * 4 + metadata.priorityResultCount * 2 +
    topPriorityBonus

/-- normalizeSearchMetadata from the server module.  On this typed
metadata the Number(x || 0) coercions are the identity; the || fallbacks
fire on an empty costMode and a zero providerRequestLimit (the JS
falsiness of "" and 0). -/
def normalizeSearchMetadata (metadata : PipelineMetadata) (costConfig : CostConfig) :
    PipelineMetadata :=
  { metadata with
    costMode := if metadata.costMode = "" then costConfig.mode else metadata.costMode
    providerRequestLimit := if metadata.providerRequestLimit = 0 then
      costConfig.providerRequestLimit else metadata.providerRequestLimit }

/-- The merged response metadata that handleSearch builds around the
selected pipeline output. -/
structure EscalationOutcome where
  results : List ResultRow
  costMode : String
  requestedCostMode : String
  effectiveCostMode : String
  cacheHit : Bool
  autoEscalationAttempted : Bool
  autoEscalated : Bool
  autoEscalationReason : Option String
  priorityResultCount : Nat
  totalResultCount : Nat
  providerRequestCountInitial : Nat
  providerRequestLimitInitial : Nat
  providerRequestCount : Nat
  providerRequestLimit : Nat
deriving DecidableEq, Repr

/-- The merged-metadata construction of handleSearch (the spread of
selectedMetadata plus the escalation annotations; the provider request
counters are overwritten with the sums exactly when an escalated run
produced metadata). -/
def mergeEscalationMetadata (requestedCostConfig : CostConfig)
    (selectedOutput : PipelineOutput) (selectedMetadata : PipelineMetadata)
    (escalationAttempted escalationTriggered : Bool) (escalationReason : String)
    (initialMetadata : PipelineMetadata) (escalatedMetadata : Option PipelineMetadata) :
    EscalationOutcome :=
  let base : EscalationOutcome :=
    { results := selectedOutput.results
      costMode := selectedMetadata.costMode
      requestedCostMode := requestedCostConfig.mode
      effectiveCostMode := selectedMetadata.costMode
      cacheHit := false
      autoEscalationAttempted := escalationAttempted
      autoEscalated := escalationTriggered && selectedMetadata.costMode = "standard"
      autoEscalationReason := if escalationReason = "" then none else some escalationReason
      priorityResultCount := selectedMetadata.priorityResultCount
      totalResultCount := selectedMetadata.totalResultCount
      providerRequestCountInitial := initialMetadata.providerRequestCount
      providerRequestLimitInitial := initialMetadata.providerRequestLimit
      providerRequestCount := selectedMetadata.providerRequestCount
      providerRequestLimit := selectedMetadata.providerRequestLimit }
  match escalatedMetadata with
  | some em =>
      if escalationAttempted then
        { base with
          providerRequestCount := initialMetadata.providerRequestCount +
            em.providerRequestCount
          providerRequestLimit := initialMetadata.providerRequestLimit +
            em.providerRequestLimit }
      else base
  | none => base

/-- The escalation block of handleSearch: given the initial (requested
mode) pipeline output and the outcome of the optional standard-mode rerun,
select the better run (ties favour the escalated run), catching a failure
of the rerun and keeping the economy result with the recorded reason. -/
def runEscalationControl (cfg : EscalationConfig)
    (requestedCostConfig standardCostConfig : CostConfig)
    (initialOutput : PipelineOutput)
    (standardRun : Except PError PipelineOutput) : EscalationOutcome :=
  let initialMetadata := normalizeSearchMetadata initialOutput.metadata requestedCostConfig
  if shouldEscalateSearch cfg requestedCostConfig.mode initialOutput.results then
    match standardRun with
    | .ok standardOutput =>
        let escalatedMetadata := normalizeSearchMetadata standardOutput.metadata
          standardCostConfig
        let initialScore := computeQualityScore initialOutput.results initialMetadata
        let escalatedScore := computeQualityScore standardOutput.results escalatedMetadata
        if initialScore ≤ escalatedScore then
          mergeEscalationMetadata requestedCostConfig standardOutput escalatedMetadata
            true true "weak_results" initialMetadata (some escalatedMetadata)
        else
          mergeEscalationMetadata requestedCostConfig initialOutput initialMetadata
            true true "weak_results" initialMetadata (some escalatedMetadata)
    | .error _ =>
        mergeEscalationMetadata requestedCostConfig initialOutput initialMetadata
          true false "weak_results_escalation_failed" initialMetadata none
  else
    mergeEscalationMetadata requestedCostConfig initialOutput initialMetadata
      false false "" initialMetadata none
/-- Fixture: URL values, rows and a provider for the concrete pipeline
scenarios used by the witnesses and counterexamples below.  The provider
returns nothing for the two Stage A batch calls (indices 0 and 1) and four
non-priority rows for the Stage B fallback call (index 2). -/
def urlA : UrlStr := .parseable ⟨"http", "aaa.example", "/zebra", "", ""⟩

def urlB : UrlStr := .parseable ⟨"http", "aaa.example", "/b", "", ""⟩

def urlC : UrlStr := .parseable ⟨"http", "aaa.example", "/zebra-c", "", ""⟩

def urlD : UrlStr := .parseable ⟨"http", "bbb.example", "/d", "", ""⟩

def rowA : Row := ⟨"zebra", urlA, "zebra"⟩

def rowB : Row := ⟨"zebra", urlB, "zebra"⟩

def rowC : Row := ⟨"zebra", urlC, ""⟩

def rowD : Row := ⟨"zebra", urlD, ""⟩

def cexProvider : Provider := fun _ _ idx =>
  if idx = 2 then .ok [rowA, rowB, rowC, rowD] else .ok []

/-- The internal relevance score of a returned row, recomputed from its
projected fields by the pipeline's own normalization (the projected fields
are already trimmed, so this is the score the row carried internally). -/
def outputScore (queryContext : QueryContext) (row : ResultRow) : Int :=
  match normalizeRow ⟨row.title, row.url, row.snippet⟩ queryContext with
  | some n => n.score
  | none => 0

/-- Fixture: a provider whose first call (index 0) is rejected with a 422
and whose later calls succeed with one row. -/
def c6Provider : Provider := fun _ _ idx =>
  if idx = 0 then .error ⟨422⟩ else .ok [rowA]

/-- Fixture: three normalized results over two domains for the
limitResultsPerDomain witness. -/
def nrA : NormalizedResult :=
  ⟨"t1", urlA, "", "aaa.example", false, 30, canonicalUrl urlA⟩

def nrB : NormalizedResult :=
  ⟨"t2", urlB, "", "aaa.example", false, 20, canonicalUrl urlB⟩

def nrC : NormalizedResult :=
  ⟨"t3", urlD, "", "bbb.example", false, 10, canonicalUrl urlD⟩

/-- The priority flag as a sort rank (priority first). -/
def prioRank (x : NormalizedResult) : Nat := if x.isPriority then 0 else 1

/-- A normalized result that the run's normalization can actually
produce. -/
def FromNorm (queryContext : QueryContext) (n : NormalizedResult) : Prop :=
  ∃ row, normalizeRow row queryContext = some n

/-- The run-wide accumulation invariant: every buffered result was
produced by normalizeRow, the buffered canonical url keys are pairwise
distinct, and each of them has been recorded in the dedup set. -/
def StageInv (queryContext : QueryContext) (seenUrls : List UrlStr)
    (target : List NormalizedResult) : Prop :=
  (∀ n ∈ target, FromNorm queryContext n) ∧
  target.Pairwise (fun a b => a.urlKey ≠ b.urlKey) ∧
  (∀ n ∈ target, n.urlKey ∈ seenUrls)

/-- Fixture: the output of the concrete zebra pipeline run. -/
def zebraOut : PipelineOutput :=
  { results :=
      [{ title := "zebra", url := urlA, snippet := "zebra",
         domain := "aaa.example", isPriority := false },
       { title := "zebra", url := urlB, snippet := "zebra",
         domain := "aaa.example", isPriority := false },
       { title := "zebra", url := urlD, snippet := "",
         domain := "bbb.example", isPriority := false },
       { title := "zebra", url := urlC, snippet := "",
         domain := "aaa.example", isPriority := false }]
    metadata :=
      { fallbackUsed := true
        priorityResultCount := 0
        totalResultCount := 4
        costMode := "economy"
        providerRequestCount := 3
        providerRequestLimit := 4
        providerBudgetExhausted := false } }

/-- Occurrences of a domain in a result list. -/
def domCount (l : List NormalizedResult) (d : String) : Nat :=
  l.countP (fun r => decide (r.domain = d))

theorem searchWithBudget_budget_pos {provider : Provider} {q : String} {c : Nat}
    (b : RequestBudget) (hr : 0 < b.remaining) :
    (searchWithBudget provider q c b).2 = ⟨b.limit, b.used + 1, b.exhausted⟩ := by
  unfold searchWithBudget
  rw [if_neg (Nat.not_le.mpr hr)]

theorem searchWithBudget_budget_zero {provider : Provider} {q : String} {c : Nat}
    (b : RequestBudget) (hr : ¬ 0 < b.remaining) :
    (searchWithBudget provider q c b).2 = ⟨b.limit, b.used, true⟩ := by
  unfold searchWithBudget
  rw [if_pos (Nat.le_zero.mpr (Nat.eq_zero_of_not_pos hr))]

theorem runBudgetCalls_count_le (provider : Provider) (calls : List (String × Nat))
    (b : RequestBudget) (h : b.used ≤ b.limit) :
    (runBudgetCalls provider b calls).2 ≤ b.limit - b.used := by
  induction calls generalizing b with
  | nil => simp [runBudgetCalls]
  | cons hd tl ih =>
    obtain ⟨q, c⟩ := hd
    have hrem : b.remaining = b.limit - b.used := rfl
    by_cases hr : 0 < b.remaining
    · have h1 : b.used + 1 ≤ b.limit := by omega
      have hih : (runBudgetCalls provider ⟨b.limit, b.used + 1, b.exhausted⟩ tl).2
          ≤ b.limit - (b.used + 1) := ih ⟨b.limit, b.used + 1, b.exhausted⟩ h1
      simp only [runBudgetCalls, searchWithBudget_budget_pos b hr, if_pos hr]
      omega
    · have hih : (runBudgetCalls provider ⟨b.limit, b.used, true⟩ tl).2
          ≤ b.limit - b.used := ih ⟨b.limit, b.used, true⟩ h
      simp only [runBudgetCalls, searchWithBudget_budget_zero b hr, if_neg hr]
      omega

/-- C1: every sequence of calls routed through one request budget created
by createRequestBudget reaches the provider at most limit times, and a
call attempted with no remaining budget marks the budget exhausted and
returns an empty row list without reaching the provider and without an
error. -/
theorem budget_ceiling_and_exhaustion :
    (∀ (provider : Provider) (costProfile : CostProfile) (mc : NumCandidate)
        (calls : List (String × Nat)),
      (runBudgetCalls provider (createRequestBudget costProfile mc) calls).2 ≤
        (createRequestBudget costProfile mc).limit) ∧
    (∀ (provider : Provider) (q : String) (c : Nat) (b : RequestBudget),
      b.remaining ≤ 0 →
      searchWithBudget provider q c b = (.ok [], ⟨b.limit, b.used, true⟩)) := by
  constructor
  · intro provider costProfile mc calls
    have h := runBudgetCalls_count_le provider calls (createRequestBudget costProfile mc)
      (by simp [createRequestBudget])
    simpa [createRequestBudget] using h
  · intro provider q c b h
    unfold searchWithBudget
    rw [if_pos h]

/-- Witness for C1 at concrete inputs: six calls against the economy
budget of limit 4 reach the provider at most 4 times, and a call on a
fully used budget returns empty rows with exhausted set. -/
theorem budget_ceiling_and_exhaustion_witness :
    (runBudgetCalls cexProvider (createRequestBudget economyProfile .nan)
        [("a", 5), ("b", 5), ("c", 5), ("d", 5), ("e", 5), ("f", 5)]).2 ≤
      (createRequestBudget economyProfile .nan).limit ∧
    searchWithBudget cexProvider "q" 5 ⟨4, 4, false⟩ = (.ok [], ⟨4, 4, true⟩) :=
  ⟨budget_ceiling_and_exhaustion.1 cexProvider economyProfile .nan
      [("a", 5), ("b", 5), ("c", 5), ("d", 5), ("e", 5), ("f", 5)],
   budget_ceiling_and_exhaustion.2 cexProvider "q" 5 ⟨4, 4, false⟩ (by decide)⟩

theorem resolveSearchCostMode_cases (candidate : String) :
    resolveSearchCostMode candidate = "economy" ∨
      resolveSearchCostMode candidate = "standard" ∨
      resolveSearchCostMode candidate = "constructor" ∨
      resolveSearchCostMode candidate = "__proto__" := by
  simp only [resolveSearchCostMode]
  split
  · rename_i h
    exact h
  · left
    rfl

/-- C9 counterexample: the membership test of the source is the JS in
operator, which walks the prototype chain, so the lower-case keys that
SEARCH_COST_MODES inherits from Object.prototype pass it and
resolveSearchCostMode returns "constructor" and "__proto__" unchanged
instead of falling back to the economy default, refuting the claim that
every input other than a profile name resolves to economy. -/
theorem cost_mode_resolution_counterexample :
    resolveSearchCostMode "constructor" = "constructor" ∧
    resolveSearchCostMode "__proto__" = "__proto__" ∧
    resolveSearchCostMode "constructor" ≠ "economy" ∧
    resolveSearchCostMode "__proto__" ≠ "economy" :=
  ⟨rfl, rfl, by decide, by decide⟩

/-- C9 (amended): resolveSearchCostMode returns the trimmed lower-cased
candidate whenever the in operator finds it on SEARCH_COST_MODES, which
accepts the profile names economy and standard but also the inherited
Object.prototype keys "constructor" and "__proto__"; every other input
resolves to the economy default. getSearchCostConfig takes a
caller-supplied positive integral call ceiling while ignoring non-positive
or non-numeric input in favour of the profile's default, and reports the
resolved mode whenever that mode names a real profile. -/
theorem cost_mode_resolution :
    (∀ candidate : String,
      resolveSearchCostMode candidate = "economy" ∨
        resolveSearchCostMode candidate = "standard" ∨
        resolveSearchCostMode candidate = "constructor" ∨
        resolveSearchCostMode candidate = "__proto__") ∧
    (∀ candidate : String,
      jsToLower (jsTrim candidate) = "economy" ∨ jsToLower (jsTrim candidate) = "standard" ∨
        jsToLower (jsTrim candidate) = "constructor" ∨
        jsToLower (jsTrim candidate) = "__proto__" →
      resolveSearchCostMode candidate = jsToLower (jsTrim candidate)) ∧
    (∀ candidate : String,
      jsToLower (jsTrim candidate) ≠ "economy" → jsToLower (jsTrim candidate) ≠ "standard" →
      jsToLower (jsTrim candidate) ≠ "constructor" →
      jsToLower (jsTrim candidate) ≠ "__proto__" →
      resolveSearchCostMode candidate = "economy") ∧
    (∀ (mode : String) (v : Int), 0 < v →
      (getSearchCostConfig mode (.num v)).providerRequestLimit = v.toNat) ∧
    (∀ (mode : String) (v : Int), v ≤ 0 →
      (getSearchCostConfig mode (.num v)).providerRequestLimit =
        (resolveSearchCostProfile mode).maxProviderCalls) ∧
    (∀ mode : String,
      (getSearchCostConfig mode .nan).providerRequestLimit =
        (resolveSearchCostProfile mode).maxProviderCalls) ∧
    (∀ (mode : String) (mc : NumCandidate),
      resolveSearchCostMode mode = "economy" ∨ resolveSearchCostMode mode = "standard" →
      (getSearchCostConfig mode mc).mode = resolveSearchCostMode mode) := by
  refine ⟨resolveSearchCostMode_cases, ?_, ?_, ?_, ?_, ?_, ?_⟩
  · intro candidate h
    simp only [resolveSearchCostMode]
    rw [if_pos h]
  · intro candidate h1 h2 h3 h4
    simp only [resolveSearchCostMode]
    rw [if_neg (by tauto)]
    rfl
  · intro mode v hv
    simp [getSearchCostConfig, normalizeMaxProviderCalls, Int.not_le.mpr hv]
  · intro mode v hv
    simp [getSearchCostConfig, normalizeMaxProviderCalls, if_pos hv]
  · intro mode
    simp [getSearchCostConfig, normalizeMaxProviderCalls]
  · intro mode mc h
    unfold getSearchCostConfig resolveSearchCostProfile
    rcases h with he | hs
    · rw [he]
      simp [economyProfile]
    · rw [hs]
      simp [standardProfile]

/-- Witness for C9 at concrete inputs: a padded upper-case known mode is
kept, the inherited key constructor is kept unchanged, an unknown mode
falls back to economy, a positive override is taken, a non-positive one
ignored, and the reported mode matches the resolved mode for a real
profile. -/
theorem cost_mode_resolution_witness :
    resolveSearchCostMode " STANDARD " = jsToLower (jsTrim " STANDARD ") ∧
    resolveSearchCostMode "constructor" = jsToLower (jsTrim "constructor") ∧
    resolveSearchCostMode "premium" = "economy" ∧
    (getSearchCostConfig "economy" (.num 7)).providerRequestLimit = (7 : Int).toNat ∧
    (getSearchCostConfig "economy" (.num (-2))).providerRequestLimit =
      (resolveSearchCostProfile "economy").maxProviderCalls ∧
    (getSearchCostConfig "standard" .nan).providerRequestLimit =
      (resolveSearchCostProfile "standard").maxProviderCalls ∧
    (getSearchCostConfig "standard" .nan).mode = resolveSearchCostMode "standard" :=
  ⟨cost_mode_resolution.2.1 " STANDARD " (by right; left; decide),
   cost_mode_resolution.2.1 "constructor" (by right; right; left; decide),
   cost_mode_resolution.2.2.1 "premium" (by decide) (by decide) (by decide) (by decide),
   cost_mode_resolution.2.2.2.1 "economy" 7 (by decide),
   cost_mode_resolution.2.2.2.2.1 "economy" (-2) (by decide),
   cost_mode_resolution.2.2.2.2.2.1 "standard",
   cost_mode_resolution.2.2.2.2.2.2 "standard" .nan (by right; decide)⟩
theorem getCount_setCount_eq (counts : List (String × Nat)) (d : String) (v : Nat) :
    getCount (setCount counts d v) d = v := by
  induction counts with
  | nil => simp [setCount, getCount]
  | cons p rest ih =>
    by_cases h : p.1 = d
    · simp [setCount, h, getCount]
    · simp [setCount, h, getCount, ih]

theorem getCount_setCount_ne (counts : List (String × Nat)) (d d' : String) (v : Nat)
    (h : d' ≠ d) : getCount (setCount counts d v) d' = getCount counts d' := by
  induction counts with
  | nil => simp [setCount, getCount, Ne.symm h]
  | cons p rest ih =>
    by_cases hp : p.1 = d
    · simp [setCount, hp, getCount, Ne.symm h, ih]
    · simp [setCount, hp, getCount, ih]

theorem domCount_append_single (l : List NormalizedResult) (item : NormalizedResult)
    (d : String) :
    domCount (l ++ [item]) d = domCount l d + (if item.domain = d then 1 else 0) := by
  simp [domCount, List.countP_append, List.countP_cons]

theorem limitPhase1_domCount (maxPerDomain maxTotal : Nat) :
    ∀ (items selected overflow : List NormalizedResult)
      (domainCounts : List (String × Nat)),
      (∀ d, getCount domainCounts d = domCount selected d) →
      (∀ d, domCount selected d ≤ maxPerDomain) →
      ∀ d, domCount
        (limitPhase1 maxPerDomain maxTotal items selected overflow domainCounts).1 d ≤
          maxPerDomain := by
  intro items
  induction items with
  | nil =>
    intro sel ovf cnt _ h2 d
    simpa [limitPhase1] using h2 d
  | cons item rest ih =>
    intro sel ovf cnt h1 h2 d
    by_cases hacc : getCount cnt item.domain < maxPerDomain
    · have hsel : ∀ d', domCount (sel ++ [item]) d' ≤ maxPerDomain := by
        intro d'
        rw [domCount_append_single]
        by_cases hd : item.domain = d'
        · have := h1 item.domain
          have h3 : domCount sel item.domain < maxPerDomain := by omega
          rw [hd] at h3
          simp [hd]
          omega
        · simp [hd]
          exact h2 d'
      by_cases hstop : maxTotal ≤ (sel ++ [item]).length
      · simp only [limitPhase1, hacc, if_pos, if_true, hstop, if_pos]
        exact hsel d
      · have h1' : ∀ d', getCount (setCount cnt item.domain
            (getCount cnt item.domain + 1)) d' = domCount (sel ++ [item]) d' := by
          intro d'
          by_cases hd : d' = item.domain
          · rw [hd, getCount_setCount_eq, domCount_append_single]
            have := h1 item.domain
            simp
            omega
          · rw [getCount_setCount_ne cnt item.domain d' _ hd, domCount_append_single]
            have hne : item.domain ≠ d' := fun hh => hd hh.symm
            simp [hne]
            exact h1 d'
        have := ih (sel ++ [item]) ovf
          (setCount cnt item.domain (getCount cnt item.domain + 1)) h1' hsel d
        simp only [limitPhase1, hacc, if_pos, if_true]
        simp only [if_neg hstop]
        exact this
    · by_cases hstop : maxTotal ≤ sel.length
      · simp only [limitPhase1, hacc, if_neg, if_false]
        simp only [if_pos hstop]
        exact h2 d
      · have := ih sel (ovf ++ [item]) cnt h1 h2 d
        simp only [limitPhase1, hacc, if_neg, if_false]
        simp only [if_neg hstop]
        exact this

theorem limitPhase1_subperm (maxPerDomain maxTotal : Nat) :
    ∀ (items selected overflow : List NormalizedResult)
      (domainCounts : List (String × Nat)),
      List.Subperm
        ((limitPhase1 maxPerDomain maxTotal items selected overflow domainCounts).1 ++
          (limitPhase1 maxPerDomain maxTotal items selected overflow domainCounts).2.1)
        (selected ++ overflow ++ items) := by
  intro items
  induction items with
  | nil =>
    intro sel ovf cnt
    simp only [limitPhase1, List.append_nil]
    exact List.Subperm.refl _
  | cons item rest ih =>
    intro sel ovf cnt
    have hmid : (item :: (ovf ++ rest)).Perm (ovf ++ item :: rest) :=
      List.perm_middle.symm
    by_cases hacc : getCount cnt item.domain < maxPerDomain
    · by_cases hstop : maxTotal ≤ (sel ++ [item]).length
      · simp only [limitPhase1, hacc, if_pos, if_true, if_pos hstop]
        have h1 : ((sel ++ [item]) ++ ovf) = sel ++ (item :: ovf) := by simp
        rw [h1]
        have h2 : List.Sublist (item :: ovf) (item :: (ovf ++ rest)) :=
          List.Sublist.cons₂ item (List.sublist_append_left ovf rest)
        have h3 : List.Subperm (item :: ovf) (ovf ++ item :: rest) :=
          (List.Sublist.subperm h2).trans hmid.subperm
        have h4 : List.Subperm (sel ++ (item :: ovf)) (sel ++ (ovf ++ item :: rest)) :=
          (List.subperm_append_left sel).mpr h3
        simpa using h4
      · have := ih (sel ++ [item]) ovf
          (setCount cnt item.domain (getCount cnt item.domain + 1))
        simp only [limitPhase1, hacc, if_pos, if_true, if_neg hstop]
        refine this.trans ?_
        have h1 : ((sel ++ [item]) ++ ovf ++ rest) = sel ++ (item :: (ovf ++ rest)) := by
          simp
        rw [h1]
        have h4 : (sel ++ (item :: (ovf ++ rest))).Perm (sel ++ (ovf ++ item :: rest)) :=
          hmid.append_left sel
        refine h4.subperm.trans ?_
        have h5 : sel ++ (ovf ++ item :: rest) = sel ++ ovf ++ item :: rest := by simp
        rw [h5]
    · by_cases hstop : maxTotal ≤ sel.length
      · simp only [limitPhase1, hacc, if_neg, if_false, if_pos hstop]
        have h3 : List.Subperm (ovf ++ [item]) (ovf ++ item :: rest) := by
          refine (List.subperm_append_left ovf).mpr ?_
          exact List.Sublist.subperm (List.Sublist.cons₂ item (List.nil_sublist rest))
        have h4 : List.Subperm (sel ++ (ovf ++ [item])) (sel ++ (ovf ++ item :: rest)) :=
          (List.subperm_append_left sel).mpr h3
        simpa using h4
      · have := ih sel (ovf ++ [item]) cnt
        simp only [limitPhase1, hacc, if_neg, if_false, if_neg hstop]
        refine this.trans ?_
        have h1 : (sel ++ (ovf ++ [item]) ++ rest) = sel ++ ovf ++ item :: rest := by
          simp
        rw [h1]

theorem backfillOverflow_take (maxTotal : Nat) :
    ∀ (overflow selected : List NormalizedResult), selected.length < maxTotal →
      backfillOverflow maxTotal selected overflow =
        selected ++ overflow.take (maxTotal - selected.length) := by
  intro overflow
  induction overflow with
  | nil => intro sel _; simp [backfillOverflow]
  | cons item rest ih =>
    intro sel hlen
    by_cases hstop : maxTotal ≤ (sel ++ [item]).length
    · have hm : maxTotal - sel.length = 1 := by
        simp at hstop
        omega
      simp only [backfillOverflow, if_pos hstop, hm]
      simp
    · have hlen' : (sel ++ [item]).length < maxTotal := by
        simp at hstop ⊢
        omega
      have := ih (sel ++ [item]) hlen'
      simp only [backfillOverflow, if_neg hstop, this]
      have hm : maxTotal - sel.length = (maxTotal - (sel ++ [item]).length) + 1 := by
        simp
        simp at hstop
        omega
      rw [hm]
      simp [List.take_succ_cons]

theorem backfillOverflow_exists_take (maxTotal : Nat) :
    ∀ (overflow selected : List NormalizedResult),
      ∃ k, backfillOverflow maxTotal selected overflow = selected ++ overflow.take k := by
  intro overflow
  induction overflow with
  | nil =>
    intro sel
    exact ⟨0, by simp [backfillOverflow]⟩
  | cons item rest ih =>
    intro sel
    by_cases hstop : maxTotal ≤ (sel ++ [item]).length
    · refine ⟨1, ?_⟩
      simp only [backfillOverflow, if_pos hstop]
      simp
    · obtain ⟨k, hk⟩ := ih (sel ++ [item])
      refine ⟨k + 1, ?_⟩
      simp only [backfillOverflow, if_neg hstop, hk]
      simp [List.take_succ_cons]

theorem limitPhase1_not_early (maxPerDomain maxTotal : Nat) :
    ∀ (items selected overflow : List NormalizedResult)
      (domainCounts : List (String × Nat)),
      (limitPhase1 maxPerDomain maxTotal items selected overflow domainCounts).2.2 = false →
      (limitPhase1 maxPerDomain maxTotal items selected overflow domainCounts).1.length <
          maxTotal ∨
        (items = [] ∧ limitPhase1 maxPerDomain maxTotal items selected overflow
          domainCounts = (selected, overflow, false)) := by
  intro items
  induction items with
  | nil =>
    intro sel ovf cnt _
    right
    exact ⟨rfl, by simp [limitPhase1]⟩
  | cons item rest ih =>
    intro sel ovf cnt hfalse
    left
    by_cases hacc : getCount cnt item.domain < maxPerDomain
    · by_cases hstop : maxTotal ≤ (sel ++ [item]).length
      · simp only [limitPhase1, hacc, if_pos, if_true, if_pos hstop] at hfalse
        exact absurd hfalse (by decide)
      · simp only [limitPhase1, hacc, if_pos, if_true, if_neg hstop] at hfalse ⊢
        rcases ih (sel ++ [item]) ovf
            (setCount cnt item.domain (getCount cnt item.domain + 1)) hfalse with h | h
        · exact h
        · rw [h.2]
          simp at hstop ⊢
          omega
    · by_cases hstop : maxTotal ≤ sel.length
      · simp only [limitPhase1, hacc, if_neg, if_false, if_pos hstop] at hfalse
        exact absurd hfalse (by decide)
      · simp only [limitPhase1, hacc, if_neg, if_false, if_neg hstop] at hfalse ⊢
        rcases ih sel (ovf ++ [item]) cnt hfalse with h | h
        · exact h
        · rw [h.2]
          simp
          omega

theorem limitPhase1_len (maxPerDomain maxTotal : Nat) :
    ∀ (items selected overflow : List NormalizedResult)
      (domainCounts : List (String × Nat)), selected.length < maxTotal →
      (limitPhase1 maxPerDomain maxTotal items selected overflow domainCounts).1.length ≤
        maxTotal := by
  intro items
  induction items with
  | nil =>
    intro sel ovf cnt h
    simp [limitPhase1]
    omega
  | cons item rest ih =>
    intro sel ovf cnt h
    by_cases hacc : getCount cnt item.domain < maxPerDomain
    · by_cases hstop : maxTotal ≤ (sel ++ [item]).length
      · simp only [limitPhase1, hacc, if_pos, if_true, if_pos hstop]
        simp at hstop ⊢
        omega
      · simp only [limitPhase1, hacc, if_pos, if_true, if_neg hstop]
        exact ih (sel ++ [item]) ovf _ (by simp at hstop ⊢; omega)
    · by_cases hstop : maxTotal ≤ sel.length
      · simp only [limitPhase1, hacc, if_neg, if_false, if_pos hstop]
        omega
      · simp only [limitPhase1, hacc, if_neg, if_false, if_neg hstop]
        exact ih sel (ovf ++ [item]) cnt (by omega)

theorem limitResultsPerDomain_subperm (l : List NormalizedResult)
    (maxPerDomain maxTotal : Nat) :
    List.Subperm (limitResultsPerDomain l maxPerDomain maxTotal) l := by
  have hsub := limitPhase1_subperm maxPerDomain maxTotal l [] [] []
  simp only [List.nil_append] at hsub
  unfold limitResultsPerDomain
  cases hres : limitPhase1 maxPerDomain maxTotal l [] [] [] with
  | mk sel rest2 =>
    obtain ⟨ovf, early⟩ := rest2
    rw [hres] at hsub
    simp only at hsub
    cases early with
    | true =>
      simp only
      exact (List.Sublist.subperm (List.sublist_append_left sel ovf)).trans hsub
    | false =>
      simp only
      obtain ⟨k, hk⟩ := backfillOverflow_exists_take maxTotal ovf sel
      rw [hk]
      refine (List.Sublist.subperm ?_).trans hsub
      exact (List.take_sublist k ovf).append_left sel
/-- C5: limitResultsPerDomain accepts at most maxPerDomain results per
domain into the primary bucket, returns that bucket immediately when it
reaches maxTotal, otherwise backfills a prefix of the overflow bucket (in
its, i.e. score, order) until maxTotal is reached or overflow is
exhausted; for a positive maxTotal the returned list never exceeds
maxTotal entries. -/
theorem limit_results_per_domain_spec :
    ∀ (sortedResults : List NormalizedResult) (maxPerDomain maxTotal : Nat),
      (∀ d, domCount
          (limitPhase1 maxPerDomain maxTotal sortedResults [] [] []).1 d ≤ maxPerDomain) ∧
      (1 ≤ maxTotal →
        (limitResultsPerDomain sortedResults maxPerDomain maxTotal).length ≤ maxTotal) ∧
      (∀ sel ovf,
        limitPhase1 maxPerDomain maxTotal sortedResults [] [] [] = (sel, ovf, true) →
        limitResultsPerDomain sortedResults maxPerDomain maxTotal = sel) ∧
      (∀ sel ovf,
        limitPhase1 maxPerDomain maxTotal sortedResults [] [] [] = (sel, ovf, false) →
        limitResultsPerDomain sortedResults maxPerDomain maxTotal =
          sel ++ ovf.take (maxTotal - sel.length)) := by
  intro l mp mt
  refine ⟨?_, ?_, ?_, ?_⟩
  · intro d
    exact limitPhase1_domCount mp mt l [] [] []
      (fun d' => by simp [getCount, domCount]) (fun d' => by simp [domCount]) d
  · intro hmt
    cases hres : limitPhase1 mp mt l [] [] [] with
    | mk sel rest2 =>
      obtain ⟨ovf, early⟩ := rest2
      have hlen := limitPhase1_len mp mt l [] [] [] (by simpa using hmt)
      rw [hres] at hlen
      simp only at hlen
      unfold limitResultsPerDomain
      rw [hres]
      cases early with
      | true => simpa using hlen
      | false =>
        simp only
        have hne := limitPhase1_not_early mp mt l [] [] []
          (by rw [hres])
        rw [hres] at hne
        simp only at hne
        rcases hne with hlt | ⟨_, heq⟩
        · rw [backfillOverflow_take mt ovf sel hlt]
          simp [List.length_take]
          omega
        · have hsel : sel = [] := by
            have := congrArg (fun p => p.1) heq
            simpa using this
          have hovf : ovf = [] := by
            have := congrArg (fun p => p.2.1) heq
            simpa using this
          subst hsel
          subst hovf
          simp [backfillOverflow]
  · intro sel ovf h
    unfold limitResultsPerDomain
    rw [h]
  · intro sel ovf h
    unfold limitResultsPerDomain
    rw [h]
    simp only
    have hne := limitPhase1_not_early mp mt l [] [] [] (by rw [h])
    rw [h] at hne
    simp only at hne
    rcases hne with hlt | ⟨_, heq⟩
    · exact backfillOverflow_take mt ovf sel hlt
    · have hsel : sel = [] := by
        have := congrArg (fun p => p.1) heq
        simpa using this
      have hovf : ovf = [] := by
        have := congrArg (fun p => p.2.1) heq
        simpa using this
      subst hsel
      subst hovf
      simp [backfillOverflow]
/-- Witness for C5 at a concrete sorted list: with per-domain cap 1 and
maximum 2, the third result triggers the immediate return with the second
(same-domain) result spilled to overflow. -/
theorem limit_results_per_domain_witness :
    domCount (limitPhase1 1 2 [nrA, nrB, nrC] [] [] []).1 "aaa.example" ≤ 1 ∧
    (limitResultsPerDomain [nrA, nrB, nrC] 1 2).length ≤ 2 ∧
    limitResultsPerDomain [nrA, nrB, nrC] 1 2 = [nrA, nrC] :=
  ⟨(limit_results_per_domain_spec [nrA, nrB, nrC] 1 2).1 "aaa.example",
   (limit_results_per_domain_spec [nrA, nrB, nrC] 1 2).2.1 (by decide),
   (limit_results_per_domain_spec [nrA, nrB, nrC] 1 2).2.2.1 [nrA, nrC] [nrB] rfl⟩
theorem lexInt_skew (s t : String) : lexInt t s = -lexInt s t := by
  unfold lexInt
  rcases lt_trichotomy s t with h | h | h
  · simp [h, lt_asymm h]
  · subst h
    simp [lt_irrefl]
  · simp [h, lt_asymm h]

theorem lexInt_nonpos_iff (s t : String) : lexInt s t ≤ 0 ↔ s ≤ t := by
  unfold lexInt
  rcases lt_trichotomy s t with h | h | h
  · simp [h, le_of_lt h]
  · subst h
    simp [lt_irrefl]
  · simp [h, lt_asymm h, not_le.mpr h]

theorem lexInt_neg_iff (s t : String) : lexInt s t < 0 ↔ s < t := by
  unfold lexInt
  rcases lt_trichotomy s t with h | h | h
  · simp [h]
  · subst h
    simp [lt_irrefl]
  · simp [h, lt_asymm h]

theorem lexInt_eq_zero_iff (s t : String) : lexInt s t = 0 ↔ s = t := by
  unfold lexInt
  rcases lt_trichotomy s t with h | h | h
  · simp [h, ne_of_lt h]
  · subst h
    simp [lt_irrefl]
  · simp [h, lt_asymm h, (ne_of_lt h).symm]

theorem compareByScore_le_iff (a b : NormalizedResult) :
    compareByScore a b ≤ 0 ↔
      (b.score < a.score ∨ (a.score = b.score ∧ (prioRank a < prioRank b ∨
        (prioRank a = prioRank b ∧ (a.domain < b.domain ∨
          (a.domain = b.domain ∧ a.title ≤ b.title)))))) := by
  unfold compareByScore
  by_cases hs : b.score = a.score
  · rw [if_neg (fun hne => hne hs)]
    by_cases hp : a.isPriority = b.isPriority
    · rw [if_neg (fun hne => hne hp)]
      by_cases hd : a.domain = b.domain
      · rw [if_neg (fun hne => hne hd), lexInt_nonpos_iff]
        simp [hs, hp, hd, prioRank, lt_irrefl]
      · rw [if_pos hd, lexInt_nonpos_iff]
        simp [hs, hp, hd, prioRank, lt_irrefl, le_iff_lt_or_eq]
    · rw [if_pos hp]
      cases ha : a.isPriority <;> cases hb : b.isPriority
      · exact absurd (ha.trans hb.symm) hp
      · simp [hs, prioRank, ha, hb, lt_irrefl]
      · simp [hs, prioRank, ha, hb, lt_irrefl]
      · exact absurd (ha.trans hb.symm) hp
  · rw [if_pos hs, sub_nonpos]
    constructor
    · intro h
      left
      exact lt_of_le_of_ne h hs
    · intro h
      rcases h with h | ⟨h1, _⟩
      · exact le_of_lt h
      · exact absurd h1.symm hs

theorem compareByScore_skew (a b : NormalizedResult) :
    compareByScore b a = -compareByScore a b := by
  unfold compareByScore
  by_cases hs : b.score = a.score
  · rw [if_neg (fun (hne : a.score ≠ b.score) => hne hs.symm),
       if_neg (fun (hne : b.score ≠ a.score) => hne hs)]
    by_cases hp : a.isPriority = b.isPriority
    · rw [if_neg (fun (hne : b.isPriority ≠ a.isPriority) => hne hp.symm),
         if_neg (fun (hne : a.isPriority ≠ b.isPriority) => hne hp)]
      by_cases hd : a.domain = b.domain
      · rw [if_neg (fun (hne : b.domain ≠ a.domain) => hne hd.symm),
           if_neg (fun (hne : a.domain ≠ b.domain) => hne hd)]
        exact lexInt_skew a.title b.title
      · rw [if_pos (fun (he : b.domain = a.domain) => hd he.symm), if_pos hd]
        exact lexInt_skew a.domain b.domain
    · rw [if_pos (fun (he : b.isPriority = a.isPriority) => hp he.symm), if_pos hp]
      cases ha : a.isPriority <;> cases hb : b.isPriority
      · exact absurd (ha.trans hb.symm) hp
      · decide
      · decide
      · exact absurd (ha.trans hb.symm) hp
  · rw [if_pos (fun (he : a.score = b.score) => hs he.symm), if_pos hs]
    omega

/-- C4 (amended): the comparator used for the final sort orders by score
descending, breaks ties by the priority flag (priority first), then by
domain lexically ascending, then by title lexically ascending; a zero
comparison forces the four sort fields to agree (so the sorted order is
fully determined by them), and the sort stage of the pipeline produces a
list sorted under this comparator. -/
theorem sort_ordering_spec :
    (∀ a b : NormalizedResult, b.score < a.score → compareByScore a b < 0) ∧
    (∀ a b : NormalizedResult, a.score = b.score → a.isPriority = true →
      b.isPriority = false → compareByScore a b < 0) ∧
    (∀ a b : NormalizedResult, a.score = b.score → a.isPriority = b.isPriority →
      a.domain < b.domain → compareByScore a b < 0) ∧
    (∀ a b : NormalizedResult, a.score = b.score → a.isPriority = b.isPriority →
      a.domain = b.domain → compareByScore a b = lexInt a.title b.title) ∧
    (∀ a b : NormalizedResult, compareByScore a b = 0 →
      a.score = b.score ∧ a.isPriority = b.isPriority ∧ a.domain = b.domain ∧
        a.title = b.title) ∧
    (∀ l : List NormalizedResult,
      (List.insertionSort scoreLe l).Sorted scoreLe ∧
      (List.insertionSort scoreLe l).Perm l) := by
  have htrans : ∀ x y z : NormalizedResult, scoreLe x y → scoreLe y z → scoreLe x z := by
    intro x y z hxy hyz
    unfold scoreLe at hxy hyz ⊢
    rw [compareByScore_le_iff] at hxy hyz ⊢
    rcases hxy with h1 | ⟨hs1, h1⟩
    · rcases hyz with h2 | ⟨hs2, _⟩
      · exact Or.inl (lt_trans h2 h1)
      · exact Or.inl (hs2 ▸ h1)
    · rcases hyz with h2 | ⟨hs2, h2⟩
      · left
        rw [hs1]
        exact h2
      · right
        refine ⟨hs1.trans hs2, ?_⟩
        rcases h1 with hp1 | ⟨hpe1, h1⟩
        · rcases h2 with hp2 | ⟨hpe2, _⟩
          · exact Or.inl (lt_trans hp1 hp2)
          · exact Or.inl (hpe2 ▸ hp1)
        · rcases h2 with hp2 | ⟨hpe2, h2⟩
          · left
            rw [hpe1]
            exact hp2
          · right
            refine ⟨hpe1.trans hpe2, ?_⟩
            rcases h1 with hd1 | ⟨hde1, h1⟩
            · rcases h2 with hd2 | ⟨hde2, _⟩
              · exact Or.inl (lt_trans hd1 hd2)
              · exact Or.inl (hde2 ▸ hd1)
            · rcases h2 with hd2 | ⟨hde2, h2⟩
              · left
                rw [hde1]
                exact hd2
              · exact Or.inr ⟨hde1.trans hde2, le_trans h1 h2⟩
  have htotal : ∀ x y : NormalizedResult, scoreLe x y ∨ scoreLe y x := by
    intro x y
    by_cases h : compareByScore x y ≤ 0
    · exact Or.inl h
    · right
      show compareByScore y x ≤ 0
      rw [compareByScore_skew]
      omega
  refine ⟨?_, ?_, ?_, ?_, ?_, ?_⟩
  · intro a b h
    unfold compareByScore
    rw [if_pos (ne_of_lt h)]
    omega
  · intro a b hs ha hb
    unfold compareByScore
    rw [if_neg (fun hne => hne hs.symm), if_pos (by rw [ha, hb]; decide)]
    rw [if_pos ha]
    decide
  · intro a b hs hp hd
    unfold compareByScore
    rw [if_neg (fun hne => hne hs.symm), if_neg (fun hne => hne hp),
      if_pos (ne_of_lt hd)]
    exact (lexInt_neg_iff a.domain b.domain).mpr hd
  · intro a b hs hp hd
    unfold compareByScore
    rw [if_neg (fun hne => hne hs.symm), if_neg (fun hne => hne hp),
      if_neg (fun hne => hne hd)]
  · intro a b h
    unfold compareByScore at h
    by_cases hs : b.score = a.score
    · rw [if_neg (fun hne => hne hs)] at h
      by_cases hp : a.isPriority = b.isPriority
      · rw [if_neg (fun hne => hne hp)] at h
        by_cases hd : a.domain = b.domain
        · rw [if_neg (fun hne => hne hd)] at h
          exact ⟨hs.symm, hp, hd, (lexInt_eq_zero_iff a.title b.title).mp h⟩
        · rw [if_pos hd] at h
          exact absurd ((lexInt_eq_zero_iff a.domain b.domain).mp h) hd
      · rw [if_pos hp] at h
        cases ha : a.isPriority
        · rw [ha] at h
          simp at h
        · rw [ha] at h
          simp at h
    · rw [if_pos hs] at h
      exact absurd (by omega : b.score = a.score) hs
  · intro l
    exact ⟨@List.sorted_insertionSort _ scoreLe _ ⟨htotal⟩ ⟨htrans⟩ l,
      List.perm_insertionSort scoreLe l⟩

/-- Witness for C4 at concrete results: a higher score sorts first, a
priority result sorts before a non-priority one of equal score, and the
pipeline's sort produces a sorted list. -/
theorem sort_ordering_witness :
    compareByScore nrA nrB < 0 ∧
    compareByScore ⟨"t", urlA, "", "a.gov", true, 5, urlA⟩
      ⟨"u", urlB, "", "b.gov", false, 5, urlB⟩ < 0 ∧
    (List.insertionSort scoreLe [nrB, nrA]).Sorted scoreLe :=
  ⟨sort_ordering_spec.1 nrA nrB (by decide),
   sort_ordering_spec.2.1 ⟨"t", urlA, "", "a.gov", true, 5, urlA⟩
     ⟨"u", urlB, "", "b.gov", false, 5, urlB⟩ rfl rfl rfl,
   (sort_ordering_spec.2.2.2.2.2 [nrB, nrA]).1⟩

/-- Counterexample for C4 as frozen: the claim speaks of the ordering of
the final results of runSearchPipeline, but the per-domain balancing moves
overflow spill-over behind lower-scored rows, so the returned order is not
score-descending: on this concrete run the internal scores along the
output are 77, 66, 50, 61. -/
theorem final_ordering_counterexample :
    (runSearchPipeline "zebra" cexProvider ⟨"economy", .nan⟩).map
        (fun out => out.results.map (outputScore (buildQueryContext "zebra"))) =
      .ok [77, 66, 50, 61] ∧
    ¬ ([77, 66, 50, 61] : List Int).Pairwise (fun x y => y ≤ x) :=
  ⟨rfl, by decide⟩
theorem domainFallbackLoop_used (provider : Provider) (costProfile : CostProfile)
    (query : String) :
    ∀ (domains : List String) (merged : List Row) (b : RequestBudget)
      (rows : List Row) (b₂ : RequestBudget),
      domainFallbackLoop provider costProfile query domains merged b = (.ok rows, b₂) →
      domains.length + 1 ≤ b.remaining →
      b₂.used = b.used + domains.length := by
  intro domains
  induction domains with
  | nil =>
    intro merged b rows b₂ h _
    unfold domainFallbackLoop at h
    rw [Prod.mk.injEq] at h
    rw [← h.2]
    simp
  | cons d rest ih =>
    intro merged b rows b₂ h hrem
    simp only [List.length_cons] at hrem
    have hrem' : b.remaining = b.limit - b.used := rfl
    rw [hrem'] at hrem
    have hguard : ¬ b.remaining ≤ 1 := by rw [hrem']; omega
    have hpos : 0 < b.remaining := by rw [hrem']; omega
    unfold domainFallbackLoop at h
    rw [if_neg hguard] at h
    have hsb := @searchWithBudget_budget_pos provider
      (query ++ " site:" ++ d) costProfile.stageADomainResultCount b hpos
    cases hq : searchWithBudget provider (query ++ " site:" ++ d)
        costProfile.stageADomainResultCount b with
    | mk res b' =>
      have hb' : b' = ⟨b.limit, b.used + 1, b.exhausted⟩ := by
        rw [hq] at hsb
        exact hsb
      rw [hq] at h
      subst hb'
      have hrembump : rest.length + 1 ≤
          (⟨b.limit, b.used + 1, b.exhausted⟩ : RequestBudget).remaining := by
        show rest.length + 1 ≤ b.limit - (b.used + 1)
        omega
      cases res with
      | ok rows' =>
        have hrec := ih (merged ++ rows') ⟨b.limit, b.used + 1, b.exhausted⟩ rows b₂ h
          hrembump
        simp only [List.length_cons]
        simp only at hrec
        omega
      | error e =>
        by_cases h422 : e.statusCode ≠ 422
        · have h' : ((if e.statusCode ≠ 422 then
              ((.error e : Except PError (List Row)),
                (⟨b.limit, b.used + 1, b.exhausted⟩ : RequestBudget))
              else domainFallbackLoop provider costProfile query rest merged
                ⟨b.limit, b.used + 1, b.exhausted⟩)) = (.ok rows, b₂) := h
          rw [if_pos h422] at h'
          exact absurd (congrArg (fun p => p.1) h') (by simp)
        · have h' : ((if e.statusCode ≠ 422 then
              ((.error e : Except PError (List Row)),
                (⟨b.limit, b.used + 1, b.exhausted⟩ : RequestBudget))
              else domainFallbackLoop provider costProfile query rest merged
                ⟨b.limit, b.used + 1, b.exhausted⟩)) = (.ok rows, b₂) := h
          rw [if_neg h422] at h'
          have hrec := ih merged ⟨b.limit, b.used + 1, b.exhausted⟩ rows b₂ h' hrembump
          simp only [List.length_cons]
          simp only at hrec
          omega
/-- C6 (amended): when the compound Stage A batch query fails, a non-422
error propagates unchanged (and hence aborts the run through the
Except-threaded pipeline); a 422 with the fallback flag off yields zero
rows without an error; a 422 with the flag on enters the per-domain retry
loop, which retries the batch domains individually at the profile's
per-domain result count while more than one budget unit remains — in
particular, when the loop completes without error and the budget after the
batch call covers every domain plus the reserved unit, every domain of the
batch is dispatched to the provider exactly once. -/
theorem stage_a_batch_422_handling :
    ∀ (provider : Provider) (costProfile : CostProfile) (query : String)
      (domainBatch : List String) (b b₁ : RequestBudget) (e : PError),
      searchWithBudget provider (buildDomainBatchQuery query domainBatch)
          costProfile.stageABatchResultCount b = (.error e, b₁) →
      (e.statusCode ≠ 422 →
        searchPriorityBatch provider costProfile query domainBatch b = (.error e, b₁)) ∧
      (e.statusCode = 422 → costProfile.allowStageADomainFallbackOn422 = false →
        searchPriorityBatch provider costProfile query domainBatch b = (.ok [], b₁)) ∧
      (e.statusCode = 422 → costProfile.allowStageADomainFallbackOn422 = true →
        searchPriorityBatch provider costProfile query domainBatch b =
          domainFallbackLoop provider costProfile query domainBatch [] b₁) ∧
      (∀ rows b₂,
        domainFallbackLoop provider costProfile query domainBatch [] b₁ =
          (.ok rows, b₂) →
        domainBatch.length + 1 ≤ b₁.remaining →
        b₂.used = b₁.used + domainBatch.length) := by
  intro provider costProfile query domainBatch b b₁ e hsw
  have hred : searchPriorityBatch provider costProfile query domainBatch b =
      (if e.statusCode ≠ 422 then ((.error e : Except PError (List Row)), b₁)
       else if !costProfile.allowStageADomainFallbackOn422 then (.ok [], b₁)
       else domainFallbackLoop provider costProfile query domainBatch [] b₁) := by
    unfold searchPriorityBatch
    rw [hsw]
  refine ⟨?_, ?_, ?_, ?_⟩
  · intro h422
    rw [hred, if_pos h422]
  · intro h422 hflag
    rw [hred, if_neg (fun hne => hne h422), if_pos (by rw [hflag]; rfl)]
  · intro h422 hflag
    rw [hred, if_neg (fun hne => hne h422), if_neg (by rw [hflag]; simp)]
  · intro rows b₂ hloop hrem
    exact domainFallbackLoop_used provider costProfile query domainBatch [] b₁ rows b₂
      hloop hrem

/-- Witness for C6 at concrete inputs: against a provider that rejects the
first call with a 422 and answers later calls with one row, the standard
profile retries both batch domains individually (the budget of limit 9
ends with used = 3: one batch call plus one call per domain), while the
economy profile swallows the 422 into zero rows. -/
theorem stage_a_batch_422_handling_witness :
    searchPriorityBatch c6Provider standardProfile "q" ["a.gov", "b.gov"] ⟨9, 0, false⟩ =
      domainFallbackLoop c6Provider standardProfile "q" ["a.gov", "b.gov"] []
        ⟨9, 1, false⟩ ∧
    (domainFallbackLoop c6Provider standardProfile "q" ["a.gov", "b.gov"] []
        ⟨9, 1, false⟩).2.used = 1 + 2 ∧
    searchPriorityBatch c6Provider economyProfile "q" ["a.gov", "b.gov"] ⟨9, 0, false⟩ =
      (.ok [], ⟨9, 1, false⟩) :=
  ⟨(stage_a_batch_422_handling c6Provider standardProfile "q" ["a.gov", "b.gov"]
      ⟨9, 0, false⟩ ⟨9, 1, false⟩ ⟨422⟩ rfl).2.2.1 rfl rfl,
   by
    have h := (stage_a_batch_422_handling c6Provider standardProfile "q"
      ["a.gov", "b.gov"] ⟨9, 0, false⟩ ⟨9, 1, false⟩ ⟨422⟩ rfl).2.2.2
      [rowA, rowA] ⟨9, 3, false⟩ rfl (by decide)
    exact h,
   (stage_a_batch_422_handling c6Provider economyProfile "q" ["a.gov", "b.gov"]
      ⟨9, 0, false⟩ ⟨9, 1, false⟩ ⟨422⟩ rfl).2.1 rfl rfl⟩

/-- Counterexample for C6 as frozen: with the fallback flag on and a 422
on the compound query, the orchestrator does not retry every domain of
the batch — the retry loop stops as soon as at most one budget unit
remains.  With limit 2, the batch call consumes the budget down to one
remaining unit and no individual domain query is issued at all: the
provider is reached once (used = 1) and the batch yields zero rows,
although the claim promises one retry per domain. -/
theorem stage_a_batch_422_counterexample :
    searchPriorityBatch c6Provider standardProfile "q" ["a.gov", "b.gov"] ⟨2, 0, false⟩ =
      (.ok [], ⟨2, 1, false⟩) := rfl
/-- C7: with auto-escalation enabled and the requested mode economy, the
controller triggers the standard rerun exactly when the total results,
priority results or distinct domains among the top 8 fall below their
thresholds; with the escalation predicate false no rerun is attempted and
the initial output is kept; and when both runs complete, the standard
run's output is selected exactly when its quality score is at least the
economy run's (ties favour standard). -/
theorem escalation_decision_spec :
    (∀ (cfg : EscalationConfig) (mode : String) (results : List ResultRow),
      cfg.enabled = true → mode = "economy" →
      (shouldEscalateSearch cfg mode results = true ↔
        ((computeSearchQualitySignals results).totalResults < cfg.minResults ∨
         (computeSearchQualitySignals results).priorityResults < cfg.minPriorityResults ∨
         (computeSearchQualitySignals results).distinctDomainsTop8 <
           cfg.minDistinctDomains))) ∧
    (∀ (cfg : EscalationConfig) (rcc scc : CostConfig)
        (initialOutput : PipelineOutput) (standardRun : Except PError PipelineOutput),
      shouldEscalateSearch cfg rcc.mode initialOutput.results = false →
      (runEscalationControl cfg rcc scc initialOutput
          standardRun).autoEscalationAttempted = false ∧
      (runEscalationControl cfg rcc scc initialOutput standardRun).results =
        initialOutput.results) ∧
    (∀ (cfg : EscalationConfig) (rcc scc : CostConfig)
        (initialOutput standardOutput : PipelineOutput),
      shouldEscalateSearch cfg rcc.mode initialOutput.results = true →
      (runEscalationControl cfg rcc scc initialOutput
          (.ok standardOutput)).autoEscalationAttempted = true ∧
      (runEscalationControl cfg rcc scc initialOutput (.ok standardOutput)).results =
        (if computeQualityScore initialOutput.results
              (normalizeSearchMetadata initialOutput.metadata rcc) ≤
            computeQualityScore standardOutput.results
              (normalizeSearchMetadata standardOutput.metadata scc)
         then standardOutput.results else initialOutput.results)) := by
  refine ⟨?_, ?_, ?_⟩
  · intro cfg mode results he hm
    subst hm
    simp [shouldEscalateSearch, he]
    tauto
  · intro cfg rcc scc initialOutput standardRun h
    constructor
    · simp [runEscalationControl, h, mergeEscalationMetadata]
    · simp [runEscalationControl, h, mergeEscalationMetadata]
  · intro cfg rcc scc initialOutput standardOutput h
    constructor
    · by_cases hsc : computeQualityScore initialOutput.results
          (normalizeSearchMetadata initialOutput.metadata rcc) ≤
          computeQualityScore standardOutput.results
            (normalizeSearchMetadata standardOutput.metadata scc)
      · simp [runEscalationControl, h, hsc, mergeEscalationMetadata]
      · simp [runEscalationControl, h, hsc, mergeEscalationMetadata]
    · by_cases hsc : computeQualityScore initialOutput.results
          (normalizeSearchMetadata initialOutput.metadata rcc) ≤
          computeQualityScore standardOutput.results
            (normalizeSearchMetadata standardOutput.metadata scc)
      · simp [runEscalationControl, h, hsc, mergeEscalationMetadata]
      · simp [runEscalationControl, h, hsc, mergeEscalationMetadata]

/-- Witness for C7 at concrete inputs: an empty economy result below the
thresholds satisfies the escalation predicate, a disabled controller never
attempts the rerun, and an enabled one on weak results does. -/
theorem escalation_decision_witness :
    ((shouldEscalateSearch ⟨true, 8, 3, 3⟩ "economy" [] = true) ↔
      ((computeSearchQualitySignals []).totalResults < 8 ∨
       (computeSearchQualitySignals []).priorityResults < 3 ∨
       (computeSearchQualitySignals []).distinctDomainsTop8 < 3)) ∧
    (runEscalationControl ⟨false, 8, 3, 3⟩ (getSearchCostConfig "economy" .nan)
        (getSearchCostConfig "standard" .nan)
        ⟨[], ⟨false, 0, 0, "economy", 2, 4, false⟩⟩
        (.ok ⟨[], ⟨false, 0, 0, "standard", 5, 8, false⟩⟩)).autoEscalationAttempted =
      false ∧
    (runEscalationControl ⟨true, 8, 3, 3⟩ (getSearchCostConfig "economy" .nan)
        (getSearchCostConfig "standard" .nan)
        ⟨[], ⟨false, 0, 0, "economy", 2, 4, false⟩⟩
        (.ok ⟨[], ⟨false, 0, 0, "standard", 5, 8, false⟩⟩)).autoEscalationAttempted =
      true :=
  ⟨escalation_decision_spec.1 ⟨true, 8, 3, 3⟩ "economy" [] rfl rfl,
   (escalation_decision_spec.2.1 ⟨false, 8, 3, 3⟩ (getSearchCostConfig "economy" .nan)
      (getSearchCostConfig "standard" .nan)
      ⟨[], ⟨false, 0, 0, "economy", 2, 4, false⟩⟩
      (.ok ⟨[], ⟨false, 0, 0, "standard", 5, 8, false⟩⟩) (by decide)).1,
   (escalation_decision_spec.2.2 ⟨true, 8, 3, 3⟩ (getSearchCostConfig "economy" .nan)
      (getSearchCostConfig "standard" .nan)
      ⟨[], ⟨false, 0, 0, "economy", 2, 4, false⟩⟩
      ⟨[], ⟨false, 0, 0, "standard", 5, 8, false⟩⟩ (by decide)).1⟩

/-- C8: a failure of the standard-mode rerun is caught: the outcome is
built from the economy run's results, records the reason string
weak_results_escalation_failed, reports autoEscalated false, and the
provider request counter stays the economy run's. -/
theorem escalation_failure_fallback :
    ∀ (cfg : EscalationConfig) (rcc scc : CostConfig)
      (initialOutput : PipelineOutput) (e : PError),
      shouldEscalateSearch cfg rcc.mode initialOutput.results = true →
      (runEscalationControl cfg rcc scc initialOutput (.error e)).results =
          initialOutput.results ∧
      (runEscalationControl cfg rcc scc initialOutput (.error e)).autoEscalationReason =
          some "weak_results_escalation_failed" ∧
      (runEscalationControl cfg rcc scc initialOutput (.error e)).autoEscalated = false ∧
      (runEscalationControl cfg rcc scc initialOutput
          (.error e)).autoEscalationAttempted = true ∧
      (runEscalationControl cfg rcc scc initialOutput (.error e)).providerRequestCount =
        (normalizeSearchMetadata initialOutput.metadata rcc).providerRequestCount := by
  intro cfg rcc scc initialOutput e h
  refine ⟨?_, ?_, ?_, ?_, ?_⟩ <;>
    simp [runEscalationControl, h, mergeEscalationMetadata]

/-- Witness for C8 at concrete inputs: a provider error during the
escalated rerun leaves the empty economy output selected with the
escalation-failure reason recorded. -/
theorem escalation_failure_fallback_witness :
    (runEscalationControl ⟨true, 8, 3, 3⟩ (getSearchCostConfig "economy" .nan)
        (getSearchCostConfig "standard" .nan)
        ⟨[], ⟨false, 0, 0, "economy", 2, 4, false⟩⟩ (.error ⟨500⟩)).results = [] ∧
    (runEscalationControl ⟨true, 8, 3, 3⟩ (getSearchCostConfig "economy" .nan)
        (getSearchCostConfig "standard" .nan)
        ⟨[], ⟨false, 0, 0, "economy", 2, 4, false⟩⟩
        (.error ⟨500⟩)).autoEscalationReason = some "weak_results_escalation_failed" ∧
    (runEscalationControl ⟨true, 8, 3, 3⟩ (getSearchCostConfig "economy" .nan)
        (getSearchCostConfig "standard" .nan)
        ⟨[], ⟨false, 0, 0, "economy", 2, 4, false⟩⟩
        (.error ⟨500⟩)).autoEscalated = false :=
  ⟨(escalation_failure_fallback ⟨true, 8, 3, 3⟩ (getSearchCostConfig "economy" .nan)
      (getSearchCostConfig "standard" .nan)
      ⟨[], ⟨false, 0, 0, "economy", 2, 4, false⟩⟩ ⟨500⟩ (by decide)).1,
   (escalation_failure_fallback ⟨true, 8, 3, 3⟩ (getSearchCostConfig "economy" .nan)
      (getSearchCostConfig "standard" .nan)
      ⟨[], ⟨false, 0, 0, "economy", 2, 4, false⟩⟩ ⟨500⟩ (by decide)).2.1,
   (escalation_failure_fallback ⟨true, 8, 3, 3⟩ (getSearchCostConfig "economy" .nan)
      (getSearchCostConfig "standard" .nan)
      ⟨[], ⟨false, 0, 0, "economy", 2, 4, false⟩⟩ ⟨500⟩ (by decide)).2.2.1⟩
theorem computeTermCoverage_zero (terms : List String) (lt ls lu : String)
    (h : ∀ t ∈ terms, containsToken lt t = false ∧ containsToken ls t = false ∧
      containsToken lu t = false) :
    (computeTermCoverage terms lt ls lu).uniqueMatches = 0 := by
  induction terms with
  | nil => rfl
  | cons t rest ih =>
    have ht := h t (List.mem_cons_self t rest)
    have hrest := ih (fun t' ht' => h t' (List.mem_cons_of_mem t ht'))
    simp [computeTermCoverage, ht.1, ht.2.1, ht.2.2, hrest]

theorem computeTermCoverage_pos (terms : List String) (lt ls lu : String)
    (h : (computeTermCoverage terms lt ls lu).uniqueMatches ≠ 0) :
    ∃ t ∈ terms, containsToken lt t = true ∨ containsToken ls t = true ∨
      containsToken lu t = true := by
  induction terms with
  | nil => exact absurd rfl h
  | cons t rest ih =>
    by_cases hm : (containsToken lt t || (containsToken ls t || containsToken lu t)) = true
    · refine ⟨t, List.mem_cons_self t rest, ?_⟩
      simpa using hm
    · have hm' : containsToken lt t = false ∧ containsToken ls t = false ∧
          containsToken lu t = false := by
        simpa using hm
      have hrest : (computeTermCoverage rest lt ls lu).uniqueMatches ≠ 0 := by
        intro h0
        exact h (by simp [computeTermCoverage, hm'.1, hm'.2.1, hm'.2.2, h0])
      obtain ⟨t', ht', hc⟩ := ih hrest
      exact ⟨t', List.mem_cons_of_mem t ht', hc⟩

theorem normalizeRow_key {row : Row} {ctx : QueryContext} {n : NormalizedResult}
    (h : normalizeRow row ctx = some n) : n.urlKey = canonicalUrl n.url := by
  simp only [normalizeRow] at h
  split at h
  · exact absurd h (by simp)
  · split at h
    · exact absurd h (by simp)
    · rw [Option.some.injEq] at h
      rw [← h]

theorem normalizeRow_gate_none (row : Row) (ctx : QueryContext)
    (hc : ctx.coreTerms ≠ [])
    (h : ∀ t ∈ ctx.coreTerms,
      containsToken (jsToLower (jsTrim row.title)) t = false ∧
      containsToken (jsToLower (jsTrim row.snippet)) t = false ∧
      containsToken (jsToLower row.url.render) t = false) :
    normalizeRow row ctx = none := by
  simp only [normalizeRow]
  split
  · rfl
  · rw [if_pos ⟨List.length_pos.mpr hc, computeTermCoverage_zero _ _ _ _ h⟩]

theorem normalizeRow_gate_some {row : Row} {ctx : QueryContext} {n : NormalizedResult}
    (hn : normalizeRow row ctx = some n) (hc : ctx.coreTerms ≠ []) :
    ∃ t ∈ ctx.coreTerms, containsToken (jsToLower n.title) t = true ∨
      containsToken (jsToLower n.snippet) t = true ∨
      containsToken (jsToLower n.url.render) t = true := by
  simp only [normalizeRow] at hn
  split at hn
  · exact absurd hn (by simp)
  · split at hn
    · exact absurd hn (by simp)
    · rename_i hgate
      rw [Option.some.injEq] at hn
      have hpos : (computeTermCoverage ctx.coreTerms (jsToLower (jsTrim row.title))
          (jsToLower (jsTrim row.snippet)) (jsToLower row.url.render)).uniqueMatches ≠ 0 := by
        intro h0
        exact hgate ⟨List.length_pos.mpr hc, h0⟩
      obtain ⟨t, ht, hmatch⟩ := computeTermCoverage_pos _ _ _ _ hpos
      refine ⟨t, ht, ?_⟩
      rw [← hn]
      exact hmatch

theorem StageInv_snoc {ctx : QueryContext} {seen : List UrlStr}
    {target : List NormalizedResult} {row : Row} {n : NormalizedResult}
    (hinv : StageInv ctx seen target) (hn : normalizeRow row ctx = some n)
    (hseen : n.urlKey ∉ seen) :
    StageInv ctx (n.urlKey :: seen) (target ++ [n]) := by
  obtain ⟨h1, h2, h3⟩ := hinv
  refine ⟨?_, ?_, ?_⟩
  · intro m hm
    rcases List.mem_append.mp hm with hm | hm
    · exact h1 m hm
    · rw [List.mem_singleton.mp hm]
      exact ⟨row, hn⟩
  · rw [List.pairwise_append]
    refine ⟨h2, List.pairwise_singleton _ _, ?_⟩
    intro a ha b hb
    rw [List.mem_singleton.mp hb]
    intro heq
    exact hseen (heq ▸ h3 a ha)
  · intro m hm
    rcases List.mem_append.mp hm with hm | hm
    · exact List.mem_cons_of_mem _ (h3 m hm)
    · rw [List.mem_singleton.mp hm]
      exact List.mem_cons_self _ _

theorem appendUniquePriorityRows_inv (ctx : QueryContext) (mp bl : Nat) :
    ∀ (rows : List Row) (seen : List UrlStr) (target : List NormalizedResult)
      (counts : List (String × Nat)),
      StageInv ctx seen target →
      StageInv ctx (appendUniquePriorityRows ctx mp bl rows seen target counts).1
        (appendUniquePriorityRows ctx mp bl rows seen target counts).2.1 := by
  intro rows
  induction rows with
  | nil =>
    intro seen target counts hinv
    simpa [appendUniquePriorityRows] using hinv
  | cons row rest ih =>
    intro seen target counts hinv
    by_cases hbl : bl ≤ target.length
    · have hred : appendUniquePriorityRows ctx mp bl (row :: rest) seen target counts =
          (seen, target, counts) := by
        conv_lhs => unfold appendUniquePriorityRows
        rw [if_pos hbl]
      rw [hred]
      exact hinv
    · cases hn : normalizeRow row ctx with
      | none =>
        have hred : appendUniquePriorityRows ctx mp bl (row :: rest) seen target counts =
            appendUniquePriorityRows ctx mp bl rest seen target counts := by
          conv_lhs => unfold appendUniquePriorityRows
          rw [if_neg hbl]
          simp only [hn]
        rw [hred]
        exact ih seen target counts hinv
      | some n =>
        by_cases hprio : n.isPriority = true
        · by_cases hseen : n.urlKey ∈ seen
          · have hred : appendUniquePriorityRows ctx mp bl (row :: rest) seen target
                counts = appendUniquePriorityRows ctx mp bl rest seen target counts := by
              conv_lhs => unfold appendUniquePriorityRows
              rw [if_neg hbl]
              simp only [hn]
              rw [if_neg (show ¬((!n.isPriority) = true) by simp [hprio])]
              rw [if_pos hseen]
            rw [hred]
            exact ih seen target counts hinv
          · by_cases hcap : mp ≤ getCount counts n.domain
            · have hred : appendUniquePriorityRows ctx mp bl (row :: rest) seen target
                  counts = appendUniquePriorityRows ctx mp bl rest seen target counts := by
                conv_lhs => unfold appendUniquePriorityRows
                rw [if_neg hbl]
                simp only [hn]
                rw [if_neg (show ¬((!n.isPriority) = true) by simp [hprio])]
                rw [if_neg hseen, if_pos hcap]
              rw [hred]
              exact ih seen target counts hinv
            · have hred : appendUniquePriorityRows ctx mp bl (row :: rest) seen target
                  counts = appendUniquePriorityRows ctx mp bl rest (n.urlKey :: seen)
                    (target ++ [n])
                    (setCount counts n.domain (getCount counts n.domain + 1)) := by
                conv_lhs => unfold appendUniquePriorityRows
                rw [if_neg hbl]
                simp only [hn]
                rw [if_neg (show ¬((!n.isPriority) = true) by simp [hprio])]
                rw [if_neg hseen, if_neg hcap]
              rw [hred]
              exact ih _ _ _ (StageInv_snoc hinv hn hseen)
        · have hred : appendUniquePriorityRows ctx mp bl (row :: rest) seen target
              counts = appendUniquePriorityRows ctx mp bl rest seen target counts := by
            conv_lhs => unfold appendUniquePriorityRows
            rw [if_neg hbl]
            simp only [hn]
            rw [if_pos (show (!n.isPriority) = true by simp [hprio])]
          rw [hred]
          exact ih seen target counts hinv
theorem searchWithBudget_remaining_ge (provider : Provider) (q : String) (c : Nat)
    (b : RequestBudget) :
    b.remaining - 1 ≤ (searchWithBudget provider q c b).2.remaining := by
  have hb : b.remaining = b.limit - b.used := rfl
  by_cases hr : 0 < b.remaining
  · rw [searchWithBudget_budget_pos b hr]
    show b.remaining - 1 ≤ b.limit - (b.used + 1)
    omega
  · rw [searchWithBudget_budget_zero b hr]
    show b.remaining - 1 ≤ b.limit - b.used
    omega

theorem searchQueryAllow422_budget_eq (provider : Provider) (q : String) (c : Nat)
    (b : RequestBudget) :
    (searchQueryAllow422 provider q c b).2 = (searchWithBudget provider q c b).2 := by
  unfold searchQueryAllow422
  cases hs : searchWithBudget provider q c b with
  | mk res b' =>
    cases res with
    | ok rows => rfl
    | error e =>
      by_cases h422 : e.statusCode = 422
      · simp [h422]
      · simp [h422]

theorem searchQueryAllow422_remaining_ge (provider : Provider) (q : String) (c : Nat)
    (b : RequestBudget) :
    b.remaining - 1 ≤ (searchQueryAllow422 provider q c b).2.remaining := by
  rw [searchQueryAllow422_budget_eq]
  exact searchWithBudget_remaining_ge provider q c b

theorem StageInv_nil (ctx : QueryContext) (seen : List UrlStr) : StageInv ctx seen [] :=
  ⟨fun _ hm => absurd hm (List.not_mem_nil _), List.Pairwise.nil,
   fun _ hm => absurd hm (List.not_mem_nil _)⟩

theorem topicSeedQueryLoop_ok (provider : Provider) (prof : CostProfile)
    (ctx : QueryContext) :
    ∀ (qs : List String) (calls : Nat) (st : StageAState) (calls' : Nat)
      (st' : StageAState),
      topicSeedQueryLoop provider prof ctx qs calls st = .ok (calls', st') →
      (StageInv ctx st.seenUrls st.target → StageInv ctx st'.seenUrls st'.target) ∧
      (1 ≤ st.budget.remaining → 1 ≤ st'.budget.remaining) := by
  intro qs
  induction qs with
  | nil =>
    intro calls st calls' st' h
    unfold topicSeedQueryLoop at h
    rw [Except.ok.injEq, Prod.mk.injEq] at h
    rw [← h.2]
    exact ⟨id, id⟩
  | cons q rest ih =>
    intro calls st calls' st' h
    unfold topicSeedQueryLoop at h
    by_cases hstop : topicSeedStop prof calls st.budget = true
    · rw [if_pos hstop] at h
      rw [Except.ok.injEq, Prod.mk.injEq] at h
      rw [← h.2]
      exact ⟨id, id⟩
    · rw [if_neg hstop] at h
      cases hq : searchQueryAllow422 provider q prof.topicSeedResultCount st.budget with
      | mk res b' =>
        rw [hq] at h
        cases res with
        | error e =>
          have h' : (Except.error e : Except PError (Nat × StageAState)) =
              .ok (calls', st') := h
          exact absurd h' (by simp)
        | ok rows =>
          have h' : topicSeedQueryLoop provider prof ctx rest (calls + 1)
              ⟨b',
               (appendUniquePriorityRows ctx 2 prof.stageABufferLimit rows
                 st.seenUrls st.target st.domainCounts).1,
               (appendUniquePriorityRows ctx 2 prof.stageABufferLimit rows
                 st.seenUrls st.target st.domainCounts).2.1,
               (appendUniquePriorityRows ctx 2 prof.stageABufferLimit rows
                 st.seenUrls st.target st.domainCounts).2.2⟩ = .ok (calls', st') := h
          have hbud' : 1 ≤ st.budget.remaining → 1 ≤ b'.remaining := by
            intro h1
            have h2 : ¬ st.budget.remaining ≤ 1 := by
              intro hle
              exact hstop (by simp [topicSeedStop, hle])
            have h3 := searchQueryAllow422_remaining_ge provider q
              prof.topicSeedResultCount st.budget
            rw [hq] at h3
            simp only at h3
            omega
          obtain ⟨ih1, ih2⟩ := ih (calls + 1) _ calls' st' h'
          refine ⟨fun hinv => ih1 ?_, fun h1 => ih2 (hbud' h1)⟩
          exact appendUniquePriorityRows_inv ctx 2 prof.stageABufferLimit rows
            st.seenUrls st.target st.domainCounts hinv

theorem topicSeedDomainLoop_ok (provider : Provider) (prof : CostProfile)
    (ctx : QueryContext) (rule : TopicRule) (query : String) :
    ∀ (domains : List String) (calls : Nat) (st : StageAState) (calls' : Nat)
      (st' : StageAState),
      topicSeedDomainLoop provider prof ctx rule query domains calls st =
        .ok (calls', st') →
      (StageInv ctx st.seenUrls st.target → StageInv ctx st'.seenUrls st'.target) ∧
      (1 ≤ st.budget.remaining → 1 ≤ st'.budget.remaining) := by
  intro domains
  induction domains with
  | nil =>
    intro calls st calls' st' h
    unfold topicSeedDomainLoop at h
    rw [Except.ok.injEq, Prod.mk.injEq] at h
    rw [← h.2]
    exact ⟨id, id⟩
  | cons d rest ih =>
    intro calls st calls' st' h
    unfold topicSeedDomainLoop at h
    cases hq : topicSeedQueryLoop provider prof ctx
        (buildTopicSeedQueries ctx rule d query) calls st with
    | error e =>
      rw [hq] at h
      exact absurd h (by simp)
    | ok p =>
      obtain ⟨calls₁, st₁⟩ := p
      rw [hq] at h
      have hstep := topicSeedQueryLoop_ok provider prof ctx
        (buildTopicSeedQueries ctx rule d query) calls st calls₁ st₁ hq
      have h' : (if topicSeedStop prof calls₁ st₁.budget = true then
          (Except.ok (calls₁, st₁) : Except PError (Nat × StageAState))
          else topicSeedDomainLoop provider prof ctx rule query rest calls₁ st₁) =
          .ok (calls', st') := h
      by_cases hstop : topicSeedStop prof calls₁ st₁.budget = true
      · rw [if_pos hstop] at h'
        rw [Except.ok.injEq, Prod.mk.injEq] at h'
        rw [← h'.2]
        exact hstep
      · rw [if_neg hstop] at h'
        obtain ⟨ih1, ih2⟩ := ih calls₁ st₁ calls' st' h'
        exact ⟨fun hinv => ih1 (hstep.1 hinv), fun h1 => ih2 (hstep.2 h1)⟩

theorem topicSeedRuleLoop_ok (provider : Provider) (prof : CostProfile)
    (ctx : QueryContext) (query : String) :
    ∀ (rules : List TopicRule) (calls : Nat) (st : StageAState) (calls' : Nat)
      (st' : StageAState),
      topicSeedRuleLoop provider prof ctx query rules calls st = .ok (calls', st') →
      (StageInv ctx st.seenUrls st.target → StageInv ctx st'.seenUrls st'.target) ∧
      (1 ≤ st.budget.remaining → 1 ≤ st'.budget.remaining) := by
  intro rules
  induction rules with
  | nil =>
    intro calls st calls' st' h
    unfold topicSeedRuleLoop at h
    rw [Except.ok.injEq, Prod.mk.injEq] at h
    rw [← h.2]
    exact ⟨id, id⟩
  | cons rule rest ih =>
    intro calls st calls' st' h
    unfold topicSeedRuleLoop at h
    cases hq : topicSeedDomainLoop provider prof ctx rule query
        (rule.domains.take prof.maxTopicSeedDomainsPerRule) calls st with
    | error e =>
      rw [hq] at h
      exact absurd h (by simp)
    | ok p =>
      obtain ⟨calls₁, st₁⟩ := p
      rw [hq] at h
      have hstep := topicSeedDomainLoop_ok provider prof ctx rule query
        (rule.domains.take prof.maxTopicSeedDomainsPerRule) calls st calls₁ st₁ hq
      have h' : (if topicSeedStop prof calls₁ st₁.budget = true then
          (Except.ok (calls₁, st₁) : Except PError (Nat × StageAState))
          else topicSeedRuleLoop provider prof ctx query rest calls₁ st₁) =
          .ok (calls', st') := h
      by_cases hstop : topicSeedStop prof calls₁ st₁.budget = true
      · rw [if_pos hstop] at h'
        rw [Except.ok.injEq, Prod.mk.injEq] at h'
        rw [← h'.2]
        exact hstep
      · rw [if_neg hstop] at h'
        obtain ⟨ih1, ih2⟩ := ih calls₁ st₁ calls' st' h'
        exact ⟨fun hinv => ih1 (hstep.1 hinv), fun h1 => ih2 (hstep.2 h1)⟩
theorem dataCensusSeedLoop_ok (provider : Provider) (prof : CostProfile)
    (ctx : QueryContext) :
    ∀ (qs : List String) (calls : Nat) (st st' : StageAState),
      dataCensusSeedLoop provider prof ctx qs calls st = .ok st' →
      (StageInv ctx st.seenUrls st.target → StageInv ctx st'.seenUrls st'.target) ∧
      (1 ≤ st.budget.remaining → 1 ≤ st'.budget.remaining) := by
  intro qs
  induction qs with
  | nil =>
    intro calls st st' h
    unfold dataCensusSeedLoop at h
    rw [Except.ok.injEq] at h
    rw [← h]
    exact ⟨id, id⟩
  | cons q rest ih =>
    intro calls st st' h
    unfold dataCensusSeedLoop at h
    by_cases hguard : prof.maxDataCensusSeedCalls ≤ calls ∨ st.budget.remaining ≤ 1
    · rw [if_pos hguard] at h
      rw [Except.ok.injEq] at h
      rw [← h]
      exact ⟨id, id⟩
    · rw [if_neg hguard] at h
      cases hq : searchQueryAllow422 provider q prof.dataCensusSeedResultCount
          st.budget with
      | mk res b' =>
        rw [hq] at h
        cases res with
        | error e => exact absurd h (by simp)
        | ok rows =>
          have hbud' : 1 ≤ st.budget.remaining → 1 ≤ b'.remaining := by
            intro h1
            have h2 : ¬ st.budget.remaining ≤ 1 := fun hle => hguard (Or.inr hle)
            have h3 := searchQueryAllow422_remaining_ge provider q
              prof.dataCensusSeedResultCount st.budget
            rw [hq] at h3
            simp only at h3
            omega
          have hinv' := appendUniquePriorityRows_inv ctx 2 prof.stageABufferLimit rows
            st.seenUrls st.target st.domainCounts
          have h' : (if hasEnoughStageAResults
              ((appendUniquePriorityRows ctx 2 prof.stageABufferLimit rows
                st.seenUrls st.target st.domainCounts).2.1) prof = true then
              (Except.ok (⟨b',
                (appendUniquePriorityRows ctx 2 prof.stageABufferLimit rows
                  st.seenUrls st.target st.domainCounts).1,
                (appendUniquePriorityRows ctx 2 prof.stageABufferLimit rows
                  st.seenUrls st.target st.domainCounts).2.1,
                (appendUniquePriorityRows ctx 2 prof.stageABufferLimit rows
                  st.seenUrls st.target st.domainCounts).2.2⟩ : StageAState) :
                Except PError StageAState)
              else dataCensusSeedLoop provider prof ctx rest (calls + 1)
                ⟨b',
                 (appendUniquePriorityRows ctx 2 prof.stageABufferLimit rows
                   st.seenUrls st.target st.domainCounts).1,
                 (appendUniquePriorityRows ctx 2 prof.stageABufferLimit rows
                   st.seenUrls st.target st.domainCounts).2.1,
                 (appendUniquePriorityRows ctx 2 prof.stageABufferLimit rows
                   st.seenUrls st.target st.domainCounts).2.2⟩) = .ok st' := h
          by_cases henough : hasEnoughStageAResults
              ((appendUniquePriorityRows ctx 2 prof.stageABufferLimit rows
                st.seenUrls st.target st.domainCounts).2.1) prof = true
          · rw [if_pos henough] at h'
            rw [Except.ok.injEq] at h'
            rw [← h']
            exact ⟨fun hinv => hinv' hinv, hbud'⟩
          · rw [if_neg henough] at h'
            obtain ⟨ih1, ih2⟩ := ih (calls + 1) _ st' h'
            exact ⟨fun hinv => ih1 (hinv' hinv), fun h1 => ih2 (hbud' h1)⟩

theorem domainFallbackLoop_remaining (provider : Provider) (prof : CostProfile)
    (query : String) :
    ∀ (domains : List String) (merged : List Row) (b : RequestBudget)
      (res : Except PError (List Row)) (b₂ : RequestBudget),
      domainFallbackLoop provider prof query domains merged b = (res, b₂) →
      1 ≤ b.remaining → 1 ≤ b₂.remaining := by
  intro domains
  induction domains with
  | nil =>
    intro merged b res b₂ h h1
    unfold domainFallbackLoop at h
    rw [Prod.mk.injEq] at h
    rw [← h.2]
    exact h1
  | cons d rest ih =>
    intro merged b res b₂ h h1
    unfold domainFallbackLoop at h
    by_cases hguard : b.remaining ≤ 1
    · rw [if_pos hguard] at h
      rw [Prod.mk.injEq] at h
      rw [← h.2]
      exact h1
    · rw [if_neg hguard] at h
      have hges := searchWithBudget_remaining_ge provider (query ++ " site:" ++ d)
        prof.stageADomainResultCount b
      cases hq : searchWithBudget provider (query ++ " site:" ++ d)
          prof.stageADomainResultCount b with
      | mk res0 b₁ =>
        rw [hq] at h hges
        simp only at hges
        have hb₁ : 1 ≤ b₁.remaining := by omega
        cases res0 with
        | ok rows => exact ih (merged ++ rows) b₁ res b₂ h hb₁
        | error e =>
          have h' : (if e.statusCode ≠ 422 then
              ((.error e : Except PError (List Row)), b₁)
              else domainFallbackLoop provider prof query rest merged b₁) =
              (res, b₂) := h
          by_cases h422 : e.statusCode ≠ 422
          · rw [if_pos h422] at h'
            rw [Prod.mk.injEq] at h'
            rw [← h'.2]
            exact hb₁
          · rw [if_neg h422] at h'
            exact ih merged b₁ res b₂ h' hb₁

theorem searchPriorityBatch_remaining (provider : Provider) (prof : CostProfile)
    (query : String) (batch : List String) (b : RequestBudget)
    (res : Except PError (List Row)) (b' : RequestBudget)
    (h : searchPriorityBatch provider prof query batch b = (res, b'))
    (h2 : 2 ≤ b.remaining) : 1 ≤ b'.remaining := by
  unfold searchPriorityBatch at h
  have hges := searchWithBudget_remaining_ge provider
    (buildDomainBatchQuery query batch) prof.stageABatchResultCount b
  cases hq : searchWithBudget provider (buildDomainBatchQuery query batch)
      prof.stageABatchResultCount b with
  | mk res0 b₁ =>
    rw [hq] at h hges
    simp only at hges
    have hb₁ : 1 ≤ b₁.remaining := by omega
    cases res0 with
    | ok rows =>
      have h' : ((.ok rows : Except PError (List Row)), b₁) = (res, b') := h
      rw [Prod.mk.injEq] at h'
      rw [← h'.2]
      exact hb₁
    | error e =>
      have h' : (if e.statusCode ≠ 422 then ((.error e : Except PError (List Row)), b₁)
          else if !prof.allowStageADomainFallbackOn422 then (.ok [], b₁)
          else domainFallbackLoop provider prof query batch [] b₁) = (res, b') := h
      by_cases h422 : e.statusCode ≠ 422
      · rw [if_pos h422] at h'
        rw [Prod.mk.injEq] at h'
        rw [← h'.2]
        exact hb₁
      · rw [if_neg h422] at h'
        by_cases hflag : (!prof.allowStageADomainFallbackOn422) = true
        · rw [if_pos hflag] at h'
          rw [Prod.mk.injEq] at h'
          rw [← h'.2]
          exact hb₁
        · rw [if_neg hflag] at h'
          exact domainFallbackLoop_remaining provider prof query batch [] b₁ res b' h' hb₁

theorem stageABatchLoop_ok (provider : Provider) (prof : CostProfile)
    (ctx : QueryContext) (query : String) :
    ∀ (batches : List (List String)) (st st' : StageAState),
      stageABatchLoop provider prof ctx query batches st = .ok st' →
      (StageInv ctx st.seenUrls st.target → StageInv ctx st'.seenUrls st'.target) ∧
      (1 ≤ st.budget.remaining → 1 ≤ st'.budget.remaining) := by
  intro batches
  induction batches with
  | nil =>
    intro st st' h
    unfold stageABatchLoop at h
    rw [Except.ok.injEq] at h
    rw [← h]
    exact ⟨id, id⟩
  | cons batch rest ih =>
    intro st st' h
    unfold stageABatchLoop at h
    by_cases hguard : st.budget.remaining ≤ 1
    · rw [if_pos hguard] at h
      rw [Except.ok.injEq] at h
      rw [← h]
      exact ⟨id, id⟩
    · rw [if_neg hguard] at h
      cases hq : searchPriorityBatch provider prof query batch st.budget with
      | mk res0 b' =>
        rw [hq] at h
        cases res0 with
        | error e => exact absurd h (by simp)
        | ok rows =>
          have hbud' : 1 ≤ st.budget.remaining → 1 ≤ b'.remaining := by
            intro _
            exact searchPriorityBatch_remaining provider prof query batch st.budget
              (.ok rows) b' hq (by omega)
          have hinv' := appendUniquePriorityRows_inv ctx prof.stageAMaxResultsPerDomain
            prof.stageABufferLimit rows st.seenUrls st.target st.domainCounts
          have h' : (if hasEnoughStageAResults
              ((appendUniquePriorityRows ctx prof.stageAMaxResultsPerDomain
                prof.stageABufferLimit rows st.seenUrls st.target st.domainCounts).2.1)
                prof = true then
              (Except.ok (⟨b',
                (appendUniquePriorityRows ctx prof.stageAMaxResultsPerDomain
                  prof.stageABufferLimit rows st.seenUrls st.target st.domainCounts).1,
                (appendUniquePriorityRows ctx prof.stageAMaxResultsPerDomain
                  prof.stageABufferLimit rows st.seenUrls st.target st.domainCounts).2.1,
                (appendUniquePriorityRows ctx prof.stageAMaxResultsPerDomain
                  prof.stageABufferLimit rows st.seenUrls st.target
                  st.domainCounts).2.2⟩ : StageAState) : Except PError StageAState)
              else stageABatchLoop provider prof ctx query rest
                ⟨b',
                 (appendUniquePriorityRows ctx prof.stageAMaxResultsPerDomain
                   prof.stageABufferLimit rows st.seenUrls st.target st.domainCounts).1,
                 (appendUniquePriorityRows ctx prof.stageAMaxResultsPerDomain
                   prof.stageABufferLimit rows st.seenUrls st.target st.domainCounts).2.1,
                 (appendUniquePriorityRows ctx prof.stageAMaxResultsPerDomain
                   prof.stageABufferLimit rows st.seenUrls st.target
                   st.domainCounts).2.2⟩) = .ok st' := h
          by_cases henough : hasEnoughStageAResults
              ((appendUniquePriorityRows ctx prof.stageAMaxResultsPerDomain
                prof.stageABufferLimit rows st.seenUrls st.target st.domainCounts).2.1)
                prof = true
          · rw [if_pos henough] at h'
            rw [Except.ok.injEq] at h'
            rw [← h']
            exact ⟨fun hinv => hinv' hinv, hbud'⟩
          · rw [if_neg henough] at h'
            obtain ⟨ih1, ih2⟩ := ih _ st' h'
            exact ⟨fun hinv => ih1 (hinv' hinv), fun h1 => ih2 (hbud' h1)⟩

theorem runStageA_ok (provider : Provider) (prof : CostProfile) (ctx : QueryContext)
    (query : String) (b : RequestBudget) (stA : StageAState)
    (h : runStageA provider prof ctx query b = .ok stA) :
    StageInv ctx stA.seenUrls stA.target ∧
    (1 ≤ b.remaining → 1 ≤ stA.budget.remaining) := by
  unfold runStageA at h
  cases h1 : topicSeedRuleLoop provider prof ctx query ctx.activeTopicRules 0
      ⟨b, [], [], []⟩ with
  | error e =>
    rw [h1] at h
    exact absurd h (by simp)
  | ok p =>
    obtain ⟨c₁, st₁⟩ := p
    rw [h1] at h
    have hstep1 := topicSeedRuleLoop_ok provider prof ctx query ctx.activeTopicRules 0
      ⟨b, [], [], []⟩ c₁ st₁ h1
    have hinv₁ : StageInv ctx st₁.seenUrls st₁.target :=
      hstep1.1 (StageInv_nil ctx [])
    have hbud₁ : 1 ≤ b.remaining → 1 ≤ st₁.budget.remaining := hstep1.2
    have hcast : (match (if shouldSeedDataCensus ctx then
        dataCensusSeedLoop provider prof ctx (buildDataCensusSeedQueries query) 0 st₁
        else .ok st₁) with
      | .error e => (.error e : Except PError StageAState)
      | .ok st₂ => stageABatchLoop provider prof ctx query
          ((chunkArray prof.stageADomainBatchSize
            (PRIORITY_DOMAINS.filter (fun domain => domain ≠ DATA_CENSUS_HOST))).take
            prof.stageABatchLimit) st₂) = .ok stA := h
    cases h2 : (if shouldSeedDataCensus ctx then
        dataCensusSeedLoop provider prof ctx (buildDataCensusSeedQueries query) 0 st₁
      else .ok st₁) with
    | error e =>
      rw [h2] at hcast
      exact absurd hcast (by simp)
    | ok st₂ =>
      rw [h2] at hcast
      have h := hcast
      have hstep2 : (StageInv ctx st₁.seenUrls st₁.target →
          StageInv ctx st₂.seenUrls st₂.target) ∧
          (1 ≤ st₁.budget.remaining → 1 ≤ st₂.budget.remaining) := by
        by_cases hseed : shouldSeedDataCensus ctx = true
        · rw [if_pos hseed] at h2
          exact dataCensusSeedLoop_ok provider prof ctx
            (buildDataCensusSeedQueries query) 0 st₁ st₂ h2
        · rw [if_neg hseed] at h2
          rw [Except.ok.injEq] at h2
          rw [← h2]
          exact ⟨id, id⟩
      have hstep3 := stageABatchLoop_ok provider prof ctx query
        ((chunkArray prof.stageADomainBatchSize
          (PRIORITY_DOMAINS.filter (fun domain => domain ≠ DATA_CENSUS_HOST))).take
          prof.stageABatchLimit) st₂ stA h
      exact ⟨hstep3.1 (hstep2.1 hinv₁),
        fun hb => hstep3.2 (hstep2.2 (hbud₁ hb))⟩
theorem stageBLoop_props (ctx : QueryContext) (t : Nat) :
    ∀ (rows : List Row) (seen : List UrlStr) (combined : List NormalizedResult),
      StageInv ctx seen combined →
      ((stageBLoop ctx t rows seen combined).Pairwise
        (fun a b => a.urlKey ≠ b.urlKey) ∧
       ∀ n ∈ stageBLoop ctx t rows seen combined, FromNorm ctx n) := by
  intro rows
  induction rows with
  | nil =>
    intro seen combined hinv
    unfold stageBLoop
    exact ⟨hinv.2.1, hinv.1⟩
  | cons row rest ih =>
    intro seen combined hinv
    cases hn : normalizeRow row ctx with
    | none =>
      have hred : stageBLoop ctx t (row :: rest) seen combined =
          stageBLoop ctx t rest seen combined := by
        conv_lhs => unfold stageBLoop
        simp only [hn]
      rw [hred]
      exact ih seen combined hinv
    | some n =>
      by_cases hseen : n.urlKey ∈ seen
      · have hred : stageBLoop ctx t (row :: rest) seen combined =
            stageBLoop ctx t rest seen combined := by
          conv_lhs => unfold stageBLoop
          simp only [hn]
          rw [if_pos hseen]
        rw [hred]
        exact ih seen combined hinv
      · have hsnoc := StageInv_snoc hinv hn hseen
        by_cases hbreak : t * 2 ≤ (combined ++ [n]).length
        · have hred : stageBLoop ctx t (row :: rest) seen combined =
              combined ++ [n] := by
            conv_lhs => unfold stageBLoop
            simp only [hn]
            rw [if_neg hseen, if_pos hbreak]
          rw [hred]
          exact ⟨hsnoc.2.1, hsnoc.1⟩
        · have hred : stageBLoop ctx t (row :: rest) seen combined =
              stageBLoop ctx t rest (n.urlKey :: seen) (combined ++ [n]) := by
            conv_lhs => unfold stageBLoop
            simp only [hn]
            rw [if_neg hseen, if_neg hbreak]
          rw [hred]
          exact ih (n.urlKey :: seen) (combined ++ [n]) hsnoc

theorem assembled_results_props (ctx : QueryContext)
    (combined : List NormalizedResult) (mp mt : Nat)
    (hpw : combined.Pairwise (fun a b => a.urlKey ≠ b.urlKey))
    (hfn : ∀ n ∈ combined, FromNorm ctx n) :
    ((limitResultsPerDomain (List.insertionSort scoreLe combined) mp mt).map
        projectResult).Pairwise
      (fun a b => canonicalUrl a.url ≠ canonicalUrl b.url) ∧
    ∀ e ∈ (limitResultsPerDomain (List.insertionSort scoreLe combined) mp mt).map
        projectResult, ∃ n, FromNorm ctx n ∧ e = projectResult n := by
  have hsymm : ∀ {x y : NormalizedResult},
      x.urlKey ≠ y.urlKey → y.urlKey ≠ x.urlKey := fun h => Ne.symm h
  have hperm : (List.insertionSort scoreLe combined).Perm combined :=
    List.perm_insertionSort scoreLe combined
  have hpw₁ : (List.insertionSort scoreLe combined).Pairwise
      (fun a b => a.urlKey ≠ b.urlKey) :=
    (hperm.pairwise_iff hsymm).mpr hpw
  have hfn₁ : ∀ n ∈ List.insertionSort scoreLe combined, FromNorm ctx n :=
    fun n hn => hfn n (hperm.subset hn)
  have hsub := limitResultsPerDomain_subperm (List.insertionSort scoreLe combined) mp mt
  have hmem₂ : ∀ n ∈ limitResultsPerDomain (List.insertionSort scoreLe combined) mp mt,
      FromNorm ctx n := fun n hn => hfn₁ n (hsub.subset hn)
  obtain ⟨l', hl'perm, hl'sub⟩ := hsub
  have hpw₂ : (limitResultsPerDomain (List.insertionSort scoreLe combined) mp
      mt).Pairwise (fun a b => a.urlKey ≠ b.urlKey) :=
    (hl'perm.pairwise_iff hsymm).mp (List.Pairwise.sublist hl'sub hpw₁)
  constructor
  · rw [List.pairwise_map]
    refine hpw₂.imp_of_mem ?_
    intro a b ha hb hne heq
    obtain ⟨rowa, hra⟩ := hmem₂ a ha
    obtain ⟨rowb, hrb⟩ := hmem₂ b hb
    apply hne
    rw [normalizeRow_key hra, normalizeRow_key hrb]
    exact heq
  · intro e he
    rw [List.mem_map] at he
    obtain ⟨n, hn, rfl⟩ := he
    exact ⟨n, hmem₂ n hn, rfl⟩

theorem finishPipeline_results (provider : Provider) (prof : CostProfile)
    (ctx : QueryContext) (query : String) (stA : StageAState) (out : PipelineOutput)
    (hinv : StageInv ctx stA.seenUrls stA.target)
    (h : finishPipeline provider prof ctx query stA = .ok out) :
    out.results.Pairwise (fun a b => canonicalUrl a.url ≠ canonicalUrl b.url) ∧
    ∀ e ∈ out.results, ∃ n, FromNorm ctx n ∧ e = projectResult n := by
  unfold finishPipeline at h
  by_cases hcond : stA.target.length < prof.minGoodResults ∧ 0 < stA.budget.remaining
  · rw [if_pos hcond] at h
    cases hsw : searchWithBudget provider query prof.fallbackResultCount stA.budget with
    | mk res b' =>
      rw [hsw] at h
      cases res with
      | error e =>
        have h' : (Except.error e : Except PError PipelineOutput) = .ok out := h
        exact absurd h' (by simp)
      | ok stageBRaw =>
        have h' : (Except.ok (buildPipelineOutput prof stA
            (stageBLoop ctx prof.targetResultCount stageBRaw stA.seenUrls stA.target)
            b') : Except PError PipelineOutput) = .ok out := h
        rw [Except.ok.injEq] at h'
        rw [← h']
        have hprops := stageBLoop_props ctx prof.targetResultCount stageBRaw
          stA.seenUrls stA.target hinv
        exact assembled_results_props ctx _ prof.maxResultsPerDomain
          prof.absoluteMaxResults hprops.1 hprops.2
  · rw [if_neg hcond] at h
    rw [Except.ok.injEq] at h
    rw [← h]
    exact assembled_results_props ctx stA.target prof.maxResultsPerDomain
      prof.absoluteMaxResults hinv.2.1 hinv.1

/-- C2: no two entries of one run's result list share a canonical URL key
(the URL with its fragment cleared and, for a non-root path, trailing
slashes stripped — the canonicalUrl of the ranker). -/
theorem dedup_invariant :
    ∀ (query : String) (provider : Provider) (options : PipelineOptions)
      (out : PipelineOutput),
      runSearchPipeline query provider options = .ok out →
      out.results.Pairwise (fun a b => canonicalUrl a.url ≠ canonicalUrl b.url) := by
  intro query provider options out h
  simp only [runSearchPipeline] at h
  cases hA : runStageA provider (resolveSearchCostProfile options.costMode)
      (buildQueryContext query) query
      (createRequestBudget (resolveSearchCostProfile options.costMode)
        options.maxProviderCalls) with
  | error e =>
    rw [hA] at h
    exact absurd h (by simp)
  | ok stA =>
    rw [hA] at h
    have h' : finishPipeline provider (resolveSearchCostProfile options.costMode)
        (buildQueryContext query) query stA = .ok out := h
    exact (finishPipeline_results provider _ _ query stA out
      (runStageA_ok provider _ _ query _ stA hA).1 h').1

/-- Witness for C2: the concrete zebra run succeeds and its four returned
entries carry pairwise distinct canonical URLs. -/
theorem dedup_invariant_witness :
    runSearchPipeline "zebra" cexProvider ⟨"economy", .nan⟩ = .ok zebraOut ∧
    zebraOut.results.Pairwise
      (fun a b => canonicalUrl a.url ≠ canonicalUrl b.url) :=
  ⟨rfl, dedup_invariant "zebra" cexProvider ⟨"economy", .nan⟩ zebraOut rfl⟩
/-- C3: when the query context has non-empty core terms, a row none of
whose core terms appear (by the word-boundary/substring match of
containsToken) in its trimmed lower-cased title, snippet or URL string is
rejected by normalizeRow before any scoring, and consequently every entry
of runSearchPipeline's output matches at least one core term in its
title, snippet or URL. -/
theorem core_term_gate :
    (∀ (row : Row) (ctx : QueryContext), ctx.coreTerms ≠ [] →
      (∀ t ∈ ctx.coreTerms,
        containsToken (jsToLower (jsTrim row.title)) t = false ∧
        containsToken (jsToLower (jsTrim row.snippet)) t = false ∧
        containsToken (jsToLower row.url.render) t = false) →
      normalizeRow row ctx = none) ∧
    (∀ (query : String) (provider : Provider) (options : PipelineOptions)
        (out : PipelineOutput),
      runSearchPipeline query provider options = .ok out →
      (buildQueryContext query).coreTerms ≠ [] →
      ∀ e ∈ out.results, ∃ t ∈ (buildQueryContext query).coreTerms,
        containsToken (jsToLower e.title) t = true ∨
        containsToken (jsToLower e.snippet) t = true ∨
        containsToken (jsToLower e.url.render) t = true) := by
  constructor
  · exact normalizeRow_gate_none
  · intro query provider options out h hc e he
    simp only [runSearchPipeline] at h
    cases hA : runStageA provider (resolveSearchCostProfile options.costMode)
        (buildQueryContext query) query
        (createRequestBudget (resolveSearchCostProfile options.costMode)
          options.maxProviderCalls) with
    | error er =>
      rw [hA] at h
      exact absurd h (by simp)
    | ok stA =>
      rw [hA] at h
      have h' : finishPipeline provider (resolveSearchCostProfile options.costMode)
          (buildQueryContext query) query stA = .ok out := h
      obtain ⟨n, ⟨row, hrow⟩, he'⟩ := (finishPipeline_results provider _ _ query stA out
        (runStageA_ok provider _ _ query _ stA hA).1 h').2 e he
      obtain ⟨t, ht, hmatch⟩ := normalizeRow_gate_some hrow hc
      rw [he']
      exact ⟨t, ht, hmatch⟩

/-- Witness for C3: a row without the core term zebra anywhere is rejected
by normalizeRow, and every entry of the concrete zebra run's output
matches the core term. -/
theorem core_term_gate_witness :
    normalizeRow ⟨"unrelated title", urlB, "nothing here"⟩
      (buildQueryContext "zebra") = none ∧
    (∀ e ∈ zebraOut.results, ∃ t ∈ (buildQueryContext "zebra").coreTerms,
      containsToken (jsToLower e.title) t = true ∨
      containsToken (jsToLower e.snippet) t = true ∨
      containsToken (jsToLower e.url.render) t = true) :=
  ⟨core_term_gate.1 ⟨"unrelated title", urlB, "nothing here"⟩
      (buildQueryContext "zebra") (by decide) (by decide),
   core_term_gate.2 "zebra" cexProvider ⟨"economy", .nan⟩ zebraOut rfl (by decide)⟩

/-- C10: the Stage A stages (topic seeding, data-census seeding, batched
sweep) dispatch provider calls only while more than one budget unit
remains, so each preserves a positive remaining budget; consequently,
whenever the run's call limit is at least 1, at the point runSearchPipeline
evaluates the Stage B decision at least one unit remains and the
fallback's remaining > 0 guard is redundant: the Stage B entry condition
is equivalent to the fallback condition alone. -/
theorem stage_a_budget_reserve :
    (∀ (provider : Provider) (prof : CostProfile) (ctx : QueryContext)
        (query : String) (rules : List TopicRule) (calls : Nat)
        (st : StageAState) (calls' : Nat) (st' : StageAState),
      topicSeedRuleLoop provider prof ctx query rules calls st = .ok (calls', st') →
      1 ≤ st.budget.remaining → 1 ≤ st'.budget.remaining) ∧
    (∀ (provider : Provider) (prof : CostProfile) (ctx : QueryContext)
        (qs : List String) (calls : Nat) (st st' : StageAState),
      dataCensusSeedLoop provider prof ctx qs calls st = .ok st' →
      1 ≤ st.budget.remaining → 1 ≤ st'.budget.remaining) ∧
    (∀ (provider : Provider) (prof : CostProfile) (ctx : QueryContext)
        (query : String) (batches : List (List String)) (st st' : StageAState),
      stageABatchLoop provider prof ctx query batches st = .ok st' →
      1 ≤ st.budget.remaining → 1 ≤ st'.budget.remaining) ∧
    (∀ (provider : Provider) (prof : CostProfile) (ctx : QueryContext)
        (query : String) (mc : NumCandidate) (stA : StageAState),
      runStageA provider prof ctx query (createRequestBudget prof mc) = .ok stA →
      1 ≤ (createRequestBudget prof mc).limit →
      1 ≤ stA.budget.remaining ∧
      ((stA.target.length < prof.minGoodResults ∧ 0 < stA.budget.remaining) ↔
        stA.target.length < prof.minGoodResults)) := by
  refine ⟨?_, ?_, ?_, ?_⟩
  · intro provider prof ctx query rules calls st calls' st' h h1
    exact (topicSeedRuleLoop_ok provider prof ctx query rules calls st calls' st' h).2
      h1
  · intro provider prof ctx qs calls st st' h h1
    exact (dataCensusSeedLoop_ok provider prof ctx qs calls st st' h).2 h1
  · intro provider prof ctx query batches st st' h h1
    exact (stageABatchLoop_ok provider prof ctx query batches st st' h).2 h1
  · intro provider prof ctx query mc stA h hlim
    have hrem : 1 ≤ (createRequestBudget prof mc).remaining := by
      show 1 ≤ (createRequestBudget prof mc).limit - 0
      omega
    have hbud := (runStageA_ok provider prof ctx query _ stA h).2 hrem
    refine ⟨hbud, ?_, fun hf => ⟨hf, by omega⟩⟩
    intro hcond
    exact hcond.1

/-- Witness for C10: in the concrete zebra run two Stage A batch calls
leave two of the four economy budget units available at the Stage B
decision. -/
theorem stage_a_budget_reserve_witness :
    1 ≤ ((⟨⟨4, 2, false⟩, [], [], []⟩ : StageAState)).budget.remaining ∧
    ((((⟨⟨4, 2, false⟩, [], [], []⟩ : StageAState)).target.length <
          economyProfile.minGoodResults ∧
        0 < ((⟨⟨4, 2, false⟩, [], [], []⟩ : StageAState)).budget.remaining) ↔
      (((⟨⟨4, 2, false⟩, [], [], []⟩ : StageAState)).target.length <
        economyProfile.minGoodResults)) :=
  stage_a_budget_reserve.2.2.2 cexProvider economyProfile
    (buildQueryContext "zebra") "zebra" .nan ⟨⟨4, 2, false⟩, [], [], []⟩ rfl
    (by decide)
